import Mathlib

/-!
Bulk Update wizard (`frontend/src/components/BulkUpdate.js`).

A shallow embedding of the React component `BulkUpdate`: its `useState` cells
become the fields of `WizardState`, every handler becomes a function on that
record, and every `async` handler is split at its `await` into the part that
runs synchronously when the event fires (`...Start`, which also yields the
request it sends) and the part that runs when the answer arrives
(`...Resume`).  The JSX of the four `renderStepN` functions is embedded as the
predicates that decide which controls exist and which are disabled.  The two
lists of step 1 that are keyed by column name are embedded once as the arrays
the component renders (`Sys`) and once as what is on screen after React has
matched old and new children by key (`Screen`); the two agree as long as no
schema answer repeats a column name.
-/

namespace BulkUpdate

/-! ## Data carried by the component -/

abbrev ColumnName := String

/-- The `File` object taken from the hidden file input; only its name is read. -/
structure FileRef where
  name : String
deriving DecidableEq, Repr

/-- One entry of `valid_updates`: a bag of column/value pairs the client never inspects. -/
structure UpdateRecord where
  fields : List (String × String)
deriving DecidableEq, Repr

/-- One entry of `invalid_rows`. -/
structure InvalidRow where
  id : String
deriving DecidableEq, Repr

/-- Answer of `/api/bulk-update/preview-upload`. -/
structure PreviewReport where
  valid_updates : List UpdateRecord
  invalid_rows : List InvalidRow
deriving DecidableEq, Repr

/-- Answer of `/api/bulk-update/execute`. -/
structure ExecutionReport where
  updated_count : Int
  skipped_count : Int
  message : String
deriving DecidableEq, Repr

/-- The JSON object held in the `preview` cell: `setPreview` is called both with the
preview answer and with the final report. -/
inductive Report where
  | previewReport (p : PreviewReport)
  | executionReport (e : ExecutionReport)
deriving DecidableEq, Repr

/-- Property read `preview.invalid_rows`; `none` stands for `undefined`. -/
def Report.invalid_rows : Report → Option (List InvalidRow)
  | .previewReport p => some p.invalid_rows
  | .executionReport _ => none

/-- Property read `preview.valid_updates`; `none` stands for `undefined`. -/
def Report.valid_updates : Report → Option (List UpdateRecord)
  | .previewReport p => some p.valid_updates
  | .executionReport _ => none

/-- The ten `useState` cells of the component (lines 5-14). -/
structure WizardState where
  step : Nat
  selectedTable : String
  columns : List ColumnName
  identifierColumn : ColumnName
  updateColumns : List ColumnName
  file : Option FileRef
  preview : Option Report
  error : String
  loading : Bool
  proceedWithErrors : Bool
deriving DecidableEq, Repr

/-- The initial values passed to `useState`. -/
def initialState : WizardState :=
  { step := 1
    selectedTable := "students_details_master"
    columns := []
    identifierColumn := ""
    updateColumns := []
    file := none
    preview := none
    error := ""
    loading := false
    proceedWithErrors := false }

/-- The `value`s of the two `<option>`s of the table selector. -/
def tableOptions : List String :=
  ["students_details_master", "student_fee_transactions"]

/-! ## Requests and answers -/

/-- The four requests the component sends through `api.get` / `api.post`. -/
inductive Request where
  | tableSchema (table : String)
  | downloadTemplate (table_name identifier_column : String) (update_columns : List ColumnName)
  | previewUpload (file : FileRef) (table_name identifier_column : String)
  | execute (table_name identifier_column : String) (updates : Option (List UpdateRecord))
deriving DecidableEq, Repr

/-- What an `await` of an `api` call resolves to: the parsed body, or a thrown
`Error` whose `message` is carried by `failure`. -/
inductive Response where
  | schema (cols : List ColumnName)
  | blob
  | report (r : Report)
  | failure (message : String)
deriving DecidableEq, Repr

/-- JavaScript `x || d` on a possibly `undefined` string: the empty string is falsy. -/
def jsOr (x : Option String) (d : String) : String :=
  match x with
  | some s => if s = "" then d else s
  | none => d

/-! ## Handlers -/

/-- Synchronous part of `fetchSchema` (lines 52-56). -/
def fetchSchemaStart (s : WizardState) : WizardState × List Request :=
  if s.selectedTable = "" then (s, [])
  else ({ s with loading := true, error := "" }, [Request.tableSchema s.selectedTable])

/-- Part of `fetchSchema` after the `await` (lines 57-65); `none` when the answer is
not one a schema request can get. -/
def fetchSchemaResume (r : Response) (s : WizardState) : Option WizardState :=
  match r with
  | .schema cols =>
      some { s with
        columns := cols
        identifierColumn := jsOr cols.head? ""
        updateColumns := []
        loading := false }
  | .failure m => some { s with error := "Failed to fetch schema: " ++ m, loading := false }
  | _ => none

/-- The updater passed to `setUpdateColumns` in `handleColumnToggle` (lines 73-77). -/
def toggle (column : ColumnName) (prev : List ColumnName) : List ColumnName :=
  if prev.contains column then prev.filter (fun c => c != column) else prev ++ [column]

/-- Handler `handleColumnToggle`. -/
def handleColumnToggle (column : ColumnName) (s : WizardState) : WizardState :=
  { s with updateColumns := toggle column s.updateColumns }

/-- Synchronous part of `handleDownloadTemplate` (lines 81-94). -/
def handleDownloadTemplateStart (s : WizardState) : WizardState × List Request :=
  if s.identifierColumn = "" || s.updateColumns.length == 0 then
    ({ s with error := "Please select an identifier and at least one column to update." }, [])
  else
    ({ s with error := "", loading := true },
      [Request.downloadTemplate s.selectedTable s.identifierColumn s.updateColumns])

/-- Part of `handleDownloadTemplate` after the `await` (lines 96-109). -/
def handleDownloadTemplateResume (r : Response) (s : WizardState) : Option WizardState :=
  match r with
  | .blob => some { s with loading := false }
  | .failure m => some { s with error := "Failed to download template: " ++ m, loading := false }
  | _ => none

/-- Synchronous part of `handleFileUpload` (lines 113-128). -/
def handleFileUploadStart (s : WizardState) : WizardState × List Request :=
  match s.file with
  | none => ({ s with error := "Please select a file to upload." }, [])
  | some f =>
      ({ s with error := "", loading := true },
        [Request.previewUpload f s.selectedTable s.identifierColumn])

/-- Part of `handleFileUpload` after the `await` (lines 129-135). -/
def handleFileUploadResume (r : Response) (s : WizardState) : Option WizardState :=
  match r with
  | .report previewData => some { s with preview := some previewData, step := 3, loading := false }
  | .failure m => some { s with error := "Upload failed: " ++ m, loading := false }
  | _ => none

/-- Synchronous part of `handleExecuteUpdate` (lines 139-154). -/
def handleExecuteUpdateStart (s : WizardState) : WizardState × List Request :=
  match s.preview with
  | none => (s, [])
  | some preview =>
      ({ s with loading := true, error := "" },
        [Request.execute s.selectedTable s.identifierColumn preview.valid_updates])

/-- Part of `handleExecuteUpdate` after the `await` (lines 155-161). -/
def handleExecuteUpdateResume (r : Response) (s : WizardState) : Option WizardState :=
  match r with
  | .report result => some { s with preview := some result, step := 4, loading := false }
  | .failure m => some { s with error := "Execution failed: " ++ m, loading := false }
  | _ => none

/-- Handler `resetProcess` (lines 164-171): five setters, then `fetchSchema()`. -/
def resetProcess (s : WizardState) : WizardState × List Request :=
  fetchSchemaStart
    { s with step := 1, file := none, preview := none, error := "", proceedWithErrors := false }

/-- The `onChange` of the table selector followed by the effect it triggers:
`setSelectedTable` gives `fetchSchema` a new identity and `useEffect` calls it. -/
def selectTable (t : String) (s : WizardState) : WizardState × List Request :=
  fetchSchemaStart { s with selectedTable := t }

/-! ## What is rendered -/

/-- `disabled` of the "Download Template" button (line 223). -/
def downloadTemplateDisabled (s : WizardState) : Bool :=
  s.loading || s.updateColumns.length == 0

/-- `disabled` of the "Next: Upload File" button (line 230). -/
def nextDisabled (s : WizardState) : Bool :=
  s.updateColumns.length == 0

/-- The array `columns.filter((c) => c !== identifierColumn)` of lines 204-205, which
`map` turns into the checkbox elements, keyed by column name, that are handed to React.
As long as no column name repeats these are the checkboxes on screen in step 1; with
repeated names, hence repeated keys, more checkboxes can be on screen: see
`Screen.boxes`. -/
def checklist (s : WizardState) : List ColumnName :=
  s.columns.filter (fun c => c != s.identifierColumn)

/-- `disabled` of the "Preview Changes" button (line 265). -/
def previewChangesDisabled (s : WizardState) : Bool :=
  s.loading || s.file.isNone

/-- What `renderStep3` puts on screen. -/
structure Step3View where
  /-- the two summary cards, rendered under `preview &&` -/
  summary : Option (Nat × Nat)
  /-- the invalid ids listed above the acknowledgment checkbox; `none` when the
  whole `error-details` block is absent -/
  errorTags : Option (List String)
  /-- `checked` of the acknowledgment checkbox -/
  ackChecked : Bool
  executeDisabled : Bool
  executeLabel : String
deriving DecidableEq, Repr

/-- The function `renderStep3` (lines 273-338); `none` when evaluating the JSX throws a
`TypeError` (a property read on `null` or `undefined`). -/
def renderStep3 (s : WizardState) : Option Step3View :=
  match s.preview with
  | none =>
      -- both `preview && ...` blocks are skipped; the button reads `preview` only
      -- when `loading` is false
      if s.loading then
        some { summary := none, errorTags := none, ackChecked := s.proceedWithErrors,
               executeDisabled := true, executeLabel := "Updating..." }
      else none
  | some preview =>
      match preview.valid_updates, preview.invalid_rows with
      | some valid, some invalid =>
          some
            { summary := some (valid.length, invalid.length)
              errorTags :=
                if invalid.length > 0 then some (invalid.map (fun item => item.id)) else none
              ackChecked := s.proceedWithErrors
              executeDisabled := s.loading || (decide (invalid.length > 0) && !s.proceedWithErrors)
              executeLabel :=
                if s.loading then "Updating..."
                else "Update " ++ toString valid.length ++ " Records" }
      | _, _ => none

/-- What `renderStep4` puts on screen (lines 340-364). -/
structure Step4View where
  counts : Option (Option Int × Option Int)
  finalMessage : Option String
deriving DecidableEq, Repr

/-- The function `renderStep4`. -/
def renderStep4 (s : WizardState) : Step4View :=
  match s.preview with
  | none => { counts := none, finalMessage := none }
  | some (.executionReport e) =>
      { counts := some (some e.updated_count, some e.skipped_count)
        finalMessage := some e.message }
  | some (.previewReport _) => { counts := some (none, none), finalMessage := none }

/-! ## The component as a transition system -/

/-- The component between two events: its state and the requests still awaiting an answer. -/
structure Sys where
  st : WizardState
  inflight : List Request
deriving DecidableEq, Repr

/-- Everything that can wake the component: an operator action on a rendered control,
or the answer to the request at position `i` of `inflight`. -/
inductive Event where
  | changeTable (t : String)
  | changeIdentifier (c : ColumnName)
  | toggleColumn (c : ColumnName)
  | clickDownloadTemplate
  | clickNext
  | chooseFile (f : Option FileRef)
  | clickBackToConfiguration
  | clickPreviewChanges
  | setAcknowledge (checked : Bool)
  | clickBackToUpload
  | clickExecute
  | clickStartNew
  | answer (i : Nat) (r : Response)
deriving DecidableEq, Repr

/-- Run a handler that may send requests. -/
def Sys.send (sys : Sys) (h : WizardState → WizardState × List Request) : Sys :=
  { st := (h sys.st).1, inflight := sys.inflight ++ (h sys.st).2 }

/-- The continuation that belongs to a request. -/
def deliver (q : Request) (r : Response) (s : WizardState) : Option WizardState :=
  match q with
  | .tableSchema _ => fetchSchemaResume r s
  | .downloadTemplate _ _ _ => handleDownloadTemplateResume r s
  | .previewUpload _ _ _ => handleFileUploadResume r s
  | .execute _ _ _ => handleExecuteUpdateResume r s

/-- One event.  `none` means the event cannot happen in this state: its control is
not rendered (`step === n && renderStepN()`), is `disabled`, or no such request is
in flight.  The checkboxes and the identifier options are taken to be those of the
arrays rendered last (`checklist` and `columns`), which is every one on screen as long
as no schema answer repeats a column name; `Screen.next` adds the checkboxes and
options that repeated names leave on screen. -/
def Sys.next (sys : Sys) : Event → Option Sys
  | .changeTable t =>
      if sys.st.step = 1 ∧ t ∈ tableOptions ∧ t ≠ sys.st.selectedTable then
        some (sys.send (selectTable t))
      else none
  | .changeIdentifier c =>
      if sys.st.step = 1 ∧ c ∈ sys.st.columns then
        some { sys with st := { sys.st with identifierColumn := c } }
      else none
  | .toggleColumn c =>
      if sys.st.step = 1 ∧ c ∈ checklist sys.st then
        some { sys with st := handleColumnToggle c sys.st }
      else none
  | .clickDownloadTemplate =>
      if sys.st.step = 1 ∧ downloadTemplateDisabled sys.st = false then
        some (sys.send handleDownloadTemplateStart)
      else none
  | .clickNext =>
      if sys.st.step = 1 ∧ nextDisabled sys.st = false then
        some { sys with st := { sys.st with step := 2 } }
      else none
  | .chooseFile f =>
      if sys.st.step = 2 then some { sys with st := { sys.st with file := f } } else none
  | .clickBackToConfiguration =>
      if sys.st.step = 2 then some { sys with st := { sys.st with step := 1 } } else none
  | .clickPreviewChanges =>
      if sys.st.step = 2 ∧ previewChangesDisabled sys.st = false then
        some (sys.send handleFileUploadStart)
      else none
  | .setAcknowledge checked =>
      if sys.st.step = 3 then
        match renderStep3 sys.st with
        | some v =>
            if v.errorTags.isSome then
              some { sys with st := { sys.st with proceedWithErrors := checked } }
            else none
        | none => none
      else none
  | .clickBackToUpload =>
      if sys.st.step = 3 then
        match renderStep3 sys.st with
        | some _ => some { sys with st := { sys.st with step := 2 } }
        | none => none
      else none
  | .clickExecute =>
      if sys.st.step = 3 then
        match renderStep3 sys.st with
        | some v => if v.executeDisabled then none else some (sys.send handleExecuteUpdateStart)
        | none => none
      else none
  | .clickStartNew =>
      if sys.st.step = 4 then some (sys.send resetProcess) else none
  | .answer i r =>
      match sys.inflight.get? i with
      | some q =>
          match deliver q r sys.st with
          | some s => some { st := s, inflight := sys.inflight.eraseIdx i }
          | none => none
      | none => none

/-- The component after mounting: the first render, then the effect calls `fetchSchema`. -/
def mounted : Sys :=
  Sys.send { st := initialState, inflight := [] } fetchSchemaStart

/-- A sequence of events, from left to right. -/
def Sys.run (sys : Sys) : List Event → Option Sys
  | [] => some sys
  | e :: es =>
      match sys.next e with
      | some sys1 => sys1.run es
      | none => none

/-- The states the mounted component can get into by events of `Sys.next`. -/
def Reachable (sys : Sys) : Prop :=
  ∃ es : List Event, mounted.run es = some sys

/-! ## The `api` wrapper and what the requests carry -/

/-- Reading a body (`response.json()`, `response.blob()`): the value read, or the message
of the error the read rejects with. -/
inductive Body (α : Type) where
  | value (a : α)
  | throws (message : String)
deriving DecidableEq, Repr

/-- The body of a success answer of the four endpoints. -/
inductive Payload where
  | schema (cols : List ColumnName)
  | blob
  | report (r : Report)
deriving DecidableEq, Repr

/-- The parsed JSON body of a non-success answer, as far as `api` reads it (lines 25-28
and 40-43): the value `null`, on which the property read `errData.error` throws a
`TypeError` (carried here with the message the engine gives it), or any other JSON
value with its `error` property, `none` when it has none (an object without the field,
a number, a string, a boolean, an array).  An `error` property that is not a string is
not modelled. -/
inductive ErrData where
  | jsonNull (typeError : String)
  | fields (error : Option String)
deriving DecidableEq, Repr

/-- What the `fetch` call inside `api.get` / `api.post` settles to: a rejection, an answer
with `response.ok` false (with its status and what `response.json()` makes of its
body), or an answer with `response.ok` true. -/
inductive FetchOutcome where
  | rejected (message : String)
  | notOk (status : Nat) (errData : Body ErrData)
  | ok (body : Body Payload)
deriving DecidableEq, Repr

/-- The argument of `new Error(...)` in `api`:
`errData.error || "HTTP error! status: " + response.status` (lines 26-28, 41-43). -/
def httpErrorMessage (status : Nat) (error : Option String) : String :=
  jsOr error ("HTTP error! status: " ++ toString status)

/-- The `api.get` / `api.post` call together with the body read that follows it inside the
handler's `try`: what the handler continues with.  Every rejection or throw on the
way ends in the handler's `catch` with the message of the error: the rejection of
`fetch`, the `Error` that `api` makes for a non-success answer, the `TypeError` of
`errData.error` on a `null` body, and the rejection of a body read. -/
def apiAnswer : FetchOutcome → Response
  | .rejected m => .failure m
  | .notOk status (.value (.fields error)) => .failure (httpErrorMessage status error)
  | .notOk _ (.value (.jsonNull m)) => .failure m
  | .notOk _ (.throws m) => .failure m
  | .ok (.value (.schema cols)) => .schema cols
  | .ok (.value .blob) => .blob
  | .ok (.value (.report r)) => .report r
  | .ok (.throws m) => .failure m

/-- The text each handler's `catch` puts in front of `err.message`
(lines 62, 106, 132, 158). -/
def failurePrefix : Request → String
  | .tableSchema _ => "Failed to fetch schema: "
  | .downloadTemplate _ _ _ => "Failed to download template: "
  | .previewUpload _ _ _ => "Upload failed: "
  | .execute _ _ _ => "Execution failed: "

/-- The banner `error && <div className="error-message">...` (line 375): the text shown,
`none` when no banner is rendered. -/
def errorBanner (s : WizardState) : Option String :=
  if s.error = "" then none else some s.error

/-- Lower-case hexadecimal digit, as used in the `\u00xx` escapes of `JSON.stringify`. -/
def hexDigit (n : Nat) : Char :=
  if n < 10 then Char.ofNat (48 + n) else Char.ofNat (87 + n)

/-- How `JSON.stringify` writes one character inside a string literal: the quote and the
backslash get a backslash, the control characters their short or `\u00xx` escape. -/
def jsonEscapeChar (c : Char) : List Char :=
  if c.toNat = 34 then [Char.ofNat 92, Char.ofNat 34]
  else if c.toNat = 92 then [Char.ofNat 92, Char.ofNat 92]
  else if c.toNat = 8 then [Char.ofNat 92, 'b']
  else if c.toNat = 12 then [Char.ofNat 92, 'f']
  else if c.toNat = 10 then [Char.ofNat 92, 'n']
  else if c.toNat = 13 then [Char.ofNat 92, 'r']
  else if c.toNat = 9 then [Char.ofNat 92, 't']
  else if c.toNat < 32 then
    [Char.ofNat 92, 'u', '0', '0', hexDigit (c.toNat / 16), hexDigit (c.toNat % 16)]
  else [c]

/-- The call `JSON.stringify(s)` for a string `s`. -/
def jsonQuote (s : String) : String :=
  String.mk ([Char.ofNat 34] ++ (s.data.map jsonEscapeChar).flatten ++ [Char.ofNat 34])

/-- The call `JSON.stringify(updateColumns)` for an array of strings (line 93). -/
def jsonStringify (xs : List String) : String :=
  "[" ++ ",".intercalate (xs.map jsonQuote) ++ "]"

/-- The `params` object handed to `api.get` (lines 90-94), as name/value pairs in the
order `URLSearchParams` lists them; `[]` for the requests sent without parameters. -/
def Request.query : Request → List (String × String)
  | .downloadTemplate table_name identifier_column update_columns =>
      [ ("table_name", table_name),
        ("identifier_column", identifier_column),
        ("update_columns", jsonStringify update_columns) ]
  | _ => []

/-- The file saved by lines 96-104 when the answer `r` to request `q` arrives: the
`download` attribute of the clicked link, `none` when nothing is saved.  The handler
reads `selectedTable` as it was when the button was clicked. -/
def Request.savedAs (q : Request) (r : Response) : Option String :=
  match q, r with
  | .downloadTemplate table_name _ _, .blob =>
      some ("bulk_update_" ++ table_name ++ "_template.xlsx")
  | _, _ => none

/-- A value appended to a `FormData`. -/
inductive FormValue where
  | file (f : FileRef)
  | text (s : String)
deriving DecidableEq, Repr

/-- The `FormData` body of the preview-upload request (lines 119-122); `[]` for the
other requests. -/
def Request.formData : Request → List (String × FormValue)
  | .previewUpload file table_name identifier_column =>
      [ ("file", .file file),
        ("table_name", .text table_name),
        ("identifier_column", .text identifier_column) ]
  | _ => []

/-- The checklist as the specification words it: `columns` with every occurrence of the
identifier removed, the rest in its original order. -/
def withoutIdentifier (identifier : ColumnName) : List ColumnName → List ColumnName
  | [] => []
  | c :: cs =>
      if c = identifier then withoutIdentifier identifier cs
      else c :: withoutIdentifier identifier cs

/-- The ways the network call of a handler can fail: `fetch` rejects, the answer is not
`ok`, or the body of an `ok` answer cannot be read. -/
def FetchOutcome.failed : FetchOutcome → Bool
  | .rejected _ => true
  | .notOk _ _ => true
  | .ok (.throws _) => true
  | .ok (.value _) => false

/-! ## Runs under assumptions of the claims -/

/-- The assumption on the Upload Preview Validator, for one event: a success answer to a
preview-upload request is a PreviewReport. -/
def honest (sys : Sys) : Event → Bool
  | .answer i (.report (.executionReport _)) =>
      match sys.inflight.get? i with
      | some (.previewUpload _ _ _) => false
      | _ => true
  | _ => true

/-- A sequence of events all of which satisfy `honest`. -/
def Sys.runHonest (sys : Sys) : List Event → Option Sys
  | [] => some sys
  | e :: es =>
      if honest sys e then
        match sys.next e with
        | some sys1 => sys1.runHonest es
        | none => none
      else none

/-- The states reachable while the validator answers with PreviewReports. -/
def ReachableHonest (sys : Sys) : Prop :=
  ∃ es : List Event, mounted.runHonest es = some sys

/-- The wizard together with a record, kept for the proofs only, of the table and the
identifier column submitted with the preview-upload request whose answer is the stored
preview (`none` when the stored preview does not come from a preview-upload). -/
structure Audited where
  sys : Sys
  validated : Option (String × String)
deriving DecidableEq, Repr

/-- The record after the answer `r` to request `q` has been stored. -/
def validatedBy (q : Request) (r : Response) (old : Option (String × String)) :
    Option (String × String) :=
  match q, r with
  | .previewUpload _ table_name identifier_column, .report _ =>
      some (table_name, identifier_column)
  | .execute _ _ _, .report _ => none
  | _, _ => old

/-- The record after an operator action: `resetProcess` clears the preview. -/
def validatedAfter (e : Event) (old : Option (String × String)) : Option (String × String) :=
  match e with
  | .clickStartNew => none
  | _ => old

/-- Whether the event is the arrival of an answer. -/
def Event.isAnswer : Event → Bool
  | .answer _ _ => true
  | _ => false

/-- One handler run to completion: an operator action on a wizard with nothing in flight,
followed at once by the answer `reply` to the request the action sends (`none` when it
sends none). -/
def Audited.turn (a : Audited) (e : Event) (reply : Option Response) : Option Audited :=
  if e.isAnswer then none
  else
    match a.sys.inflight, a.sys.next e with
    | [], some sys1 =>
        match sys1.inflight, reply with
        | [], none => some { sys := sys1, validated := validatedAfter e a.validated }
        | [q], some r =>
            match sys1.next (.answer 0 r) with
            | some sys2 =>
                some { sys := sys2, validated := validatedBy q r (validatedAfter e a.validated) }
            | none => none
        | _, _ => none
    | _, _ => none

/-- Mounting, with the answer to the schema request of the mount effect. -/
def Audited.start (reply : Response) : Option Audited :=
  match mounted.next (.answer 0 reply) with
  | some sys => some { sys := sys, validated := none }
  | none => none

/-- A sequence of turns. -/
def Audited.run (a : Audited) : List (Event × Option Response) → Option Audited
  | [] => some a
  | (e, reply) :: rest =>
      match a.turn e reply with
      | some a1 => a1.run rest
      | none => none

/-- The states the wizard gets into when handlers run to completion one at a time. -/
def ReachableInTurns (a : Audited) : Prop :=
  ∃ (r0 : Response) (turns : List (Event × Option Response)),
    (Audited.start r0).bind (fun a0 => a0.run turns) = some a

/-! ## The keyed lists of step 1 on screen -/

/-- First pass of React over a keyed list of children (the `<option key={col}>` elements
of line 194, the `<div key={col}>` elements of line 207): the children of the previous
render and those of the new render are paired in order for as long as their keys
agree, and a paired child is kept.  The result is what is left of the two lists. -/
def dropMatching : List ColumnName → List ColumnName → List ColumnName × List ColumnName
  | o :: os, n :: ns => if o = n then dropMatching os ns else (o :: os, n :: ns)
  | os, ns => (os, ns)

/-- Second pass of React over a keyed list: the old children that are left are entered in
a map from key to child, in order, so that a child whose key occurs again further on
is replaced in the map by the later one.  These are the children returned here: no
new child can take them over, and the sweep that deletes what remains in the map does
not reach them. -/
def shadowed : List ColumnName → List ColumnName
  | [] => []
  | x :: xs => if x ∈ xs then x :: shadowed xs else shadowed xs

/-- The keys of the children of the previous render whose elements stay on screen after
the new render without being part of the new list.  When the first pass uses up the
old list the other new children are created, and when it uses up the new list the
other old children are deleted one by one; otherwise the second pass runs. -/
def leftOver (old new : List ColumnName) : List ColumnName :=
  match dropMatching old new with
  | ([], _) => []
  | (_, []) => []
  | (os, _) => shadowed os

/-- The component together with the elements that earlier renders of step 1 left
behind: checkboxes of the column checklist and options of the identifier selector
that are on screen without belonging to the arrays rendered last. -/
structure Screen where
  sys : Sys
  leftBoxes : List ColumnName
  leftOptions : List ColumnName
deriving DecidableEq, Repr

/-- The render that follows an event, the setters of one handler run being applied
together.  While step 1 stays displayed its two keyed lists are updated in place and
can leave elements behind; when step 1 is not displayed before or after, its
container is removed or built anew and nothing of an earlier render is on screen. -/
def Screen.render (scr : Screen) (sys1 : Sys) : Screen :=
  if scr.sys.st.step = 1 ∧ sys1.st.step = 1 then
    { sys := sys1
      leftBoxes := scr.leftBoxes ++ leftOver (checklist scr.sys.st) (checklist sys1.st)
      leftOptions := scr.leftOptions ++ leftOver scr.sys.st.columns sys1.st.columns }
  else { sys := sys1, leftBoxes := [], leftOptions := [] }

/-- The names that have a checkbox on screen while step 1 is displayed: the left-over
checkboxes and those of the array rendered last.  Where on screen a left-over checkbox
stands among the others is not part of the model. -/
def Screen.boxes (scr : Screen) : List ColumnName :=
  scr.leftBoxes ++ checklist scr.sys.st

/-- The names that have an option in the identifier selector while step 1 is displayed. -/
def Screen.options (scr : Screen) : List ColumnName :=
  scr.leftOptions ++ scr.sys.st.columns

/-- The effect of one event on the component, every control on screen counted: a
left-over checkbox still calls `handleColumnToggle` with its column (line 213), and a
left-over option still is a value the identifier selector can take (line 191).  The
other controls are those of `Sys.next`. -/
def Screen.admits (scr : Screen) : Event → Option Sys
  | .toggleColumn c =>
      if scr.sys.st.step = 1 ∧ c ∈ scr.boxes then
        some { scr.sys with st := handleColumnToggle c scr.sys.st }
      else none
  | .changeIdentifier c =>
      if scr.sys.st.step = 1 ∧ c ∈ scr.options then
        some { scr.sys with st := { scr.sys.st with identifierColumn := c } }
      else none
  | e => scr.sys.next e

/-- One event, followed by the render. -/
def Screen.next (scr : Screen) (e : Event) : Option Screen :=
  (scr.admits e).map scr.render

/-- The screen after mounting. -/
def mountedScreen : Screen :=
  { sys := mounted, leftBoxes := [], leftOptions := [] }

/-- A sequence of events on the screen, from left to right. -/
def Screen.run (scr : Screen) : List Event → Option Screen
  | [] => some scr
  | e :: es =>
      match scr.next e with
      | some scr1 => scr1.run es
      | none => none

/-- The assumption on the Schema Service, for one event: a schema answer names no
column twice. -/
def distinctNames : Event → Bool
  | .answer _ (.schema cols) => decide cols.Nodup
  | _ => true

/-- A sequence of events all of which satisfy `distinctNames`. -/
def Screen.runDistinct (scr : Screen) : List Event → Option Screen
  | [] => some scr
  | e :: es =>
      if distinctNames e then
        match scr.next e with
        | some scr1 => scr1.runDistinct es
        | none => none
      else none

/-- The screens reachable while no schema answer repeats a column name. -/
def ReachableDistinct (scr : Screen) : Prop :=
  ∃ es : List Event, mountedScreen.runDistinct es = some scr

end BulkUpdate

/-!
Colour palette of the dashboard (`frontend/src/components/Dashboard.js`, lines 54-123).

JavaScript Numbers are IEEE 754 binary64 values.  The finite ones are modelled as the
rationals they denote, and every arithmetic operation of the source is the exact
operation followed by `fl`, the rounding to the nearest binary64 value.
-/

namespace Dashboard

/-- The array `brightColors` (lines 54-85). -/
def brightColors : List String :=
  [ "#4BC0C0", "#FF6384", "#FF9F40", "#FFCD56", "#36A2EB", "#9966FF", "#FF99CC", "#66FF99",
    "#FF6666", "#66CCFF", "#CC99FF", "#FFCC99", "#99FFCC", "#FF99FF", "#FFFF99", "#99FFFF",
    "#FFB366", "#B366FF", "#66FFB3", "#FF66B3", "#B3FF66", "#66B3FF", "#FF66FF", "#B3FFB3",
    "#FFB3FF", "#B3B3FF", "#FFFFB3", "#B3FFFF", "#FFD700", "#9370DB" ]

/-- Value of a hexadecimal digit of either case; `none` for every other character. -/
def hexValue (c : Char) : Option Nat :=
  if 48 ≤ c.toNat ∧ c.toNat ≤ 57 then some (c.toNat - 48)
  else if 65 ≤ c.toNat ∧ c.toNat ≤ 70 then some (c.toNat - 55)
  else if 97 ≤ c.toNat ∧ c.toNat ≤ 102 then some (c.toNat - 87)
  else none

/-- The call `parseInt(color.substring(start, start + 2), 16)` (lines 110-116) when the
substring consists of two hexadecimal digits; `none` for every other substring (what
`parseInt` makes of those is not modelled). -/
def hexPair (color : String) (start : Nat) : Option Nat :=
  match (color.data.drop start).take 2 with
  | [a, b] =>
      match hexValue a, hexValue b with
      | some x, some y => some (16 * x + y)
      | _, _ => none
  | _ => none

/-- Rounding to the nearest integer, ties to the even one. -/
def roundHalfEven (y : ℚ) : ℤ :=
  if y - ⌊y⌋ < 1 / 2 then ⌊y⌋
  else if 1 / 2 < y - ⌊y⌋ then ⌊y⌋ + 1
  else if ⌊y⌋ % 2 = 0 then ⌊y⌋
  else ⌊y⌋ + 1

/-- The binary64 value nearest to `x` (round to nearest, ties to even): 53 significant
bits, the least exponent that of the subnormal numbers.  Overflow to `Infinity` is not
modelled, so `fl` is the rounding of IEEE 754 for the `x` below `2 ^ 1024` in absolute
value. -/
def fl (x : ℚ) : ℚ :=
  if x = 0 then 0
  else
    (roundHalfEven (x / 2 ^ (max (Int.log 2 |x|) (-1022) - 52)) : ℚ) *
      2 ^ (max (Int.log 2 |x|) (-1022) - 52)

/-- The function `Math.round`: the nearest integer, ties towards plus infinity. -/
def mathRound (x : ℚ) : ℤ :=
  ⌊x + 1 / 2⌋

/-- The conversion `ToInt32` of the shift operators. -/
def toInt32 (n : ℤ) : ℤ :=
  (n + 2 ^ 31) % 2 ^ 32 - 2 ^ 31

/-- The operator `<<` on integer operands. -/
def shiftLeft (x : ℤ) (k : ℕ) : ℤ :=
  toInt32 (toInt32 x * 2 ^ (k % 32))

/-- Lower-case digit of `toString(16)`. -/
def digitChar16 (d : ℕ) : Char :=
  if d < 10 then Char.ofNat (48 + d) else Char.ofNat (87 + d)

/-- The call `n.toString(16)` for an integer `n`. -/
def toString16 (n : ℤ) : List Char :=
  if n = 0 then ['0']
  else if n < 0 then '-' :: (Nat.digits 16 n.natAbs).reverse.map digitChar16
  else (Nat.digits 16 n.natAbs).reverse.map digitChar16

/-- One channel of `blendColors` (lines 118-120):
`Math.round(c1 * (1 - ratio) + c2 * ratio)`, each operation rounded. -/
def blendChannel (c1 c2 : ℕ) (ratio : ℚ) : ℤ :=
  mathRound (fl (fl ((c1 : ℚ) * fl (1 - ratio)) + fl ((c2 : ℚ) * ratio)))

/-- The template literal of line 122:
`#` followed by `((1 << 24) + (r << 16) + (g << 8) + b).toString(16).slice(1)`. -/
def rgbString (r g b : ℤ) : String :=
  String.mk
    ('#' :: (toString16 (shiftLeft 1 24 + shiftLeft r 16 + shiftLeft g 8 + b)).drop 1)

/-- The function `blendColors` (lines 109-123); `none` when a channel of an argument is
not two hexadecimal digits. -/
def blendColors (color1 color2 : String) (ratio : ℚ) : Option String :=
  match hexPair color1 1, hexPair color1 3, hexPair color1 5,
      hexPair color2 1, hexPair color2 3, hexPair color2 5 with
  | some r1, some g1, some b1, some r2, some g2, some b2 =>
      some (rgbString (blendChannel r1 r2 ratio) (blendChannel g1 g2 ratio)
        (blendChannel b1 b2 ratio))
  | _, _, _, _, _, _ => none

/-- All values of a list of results, or `none` when one of them is absent. -/
def allOrNone : List (Option String) → Option (List String)
  | [] => some []
  | none :: _ => none
  | some x :: rest =>
      match allOrNone rest with
      | some xs => some (x :: xs)
      | none => none

/-- One round of the loop of `getBrightColors` (lines 96-103), for the index `i`. -/
def shade (count i : ℕ) : Option String :=
  match brightColors.get? (i % brightColors.length),
      brightColors.get? ((i % brightColors.length + 1) % brightColors.length) with
  | some c1, some c2 => blendColors c1 c2 (fl ((i : ℚ) / (count : ℚ)))
  | _, _ => none

/-- The function `getBrightColors` (lines 88-106) for a count that is a natural number;
`none` when a round of the loop has no result. -/
def getBrightColors (count : ℕ) : Option (List String) :=
  if count ≤ brightColors.length then some (brightColors.take count)
  else allOrNone ((List.range count).map (shade count))

/-- A `#` followed by six hexadecimal digits. -/
def IsHexColour (s : String) : Prop :=
  ∃ ds : List Char, s.data = '#' :: ds ∧ ds.length = 6 ∧ ∀ d ∈ ds, (hexValue d).isSome = true

/-- Each of the three channels of `col` lies between the same channel of `c1` and of
`c2`. -/
def ChannelsBetween (c1 c2 col : String) : Prop :=
  ∀ start ∈ [1, 3, 5], ∃ x y z : ℕ,
    hexPair c1 start = some x ∧ hexPair c2 start = some y ∧ hexPair col start = some z ∧
      min x y ≤ z ∧ z ≤ max x y

end Dashboard

namespace BulkUpdate

/-! ## Scenarios and invariants used below -/

/-- Invariant of the transition system: the step is one of the four stages and the
selected table is one of the two options. -/
def WellFormed (sys : Sys) : Prop :=
  (sys.st.step = 1 ∨ sys.st.step = 2 ∨ sys.st.step = 3 ∨ sys.st.step = 4) ∧
    sys.st.selectedTable ∈ tableOptions

/-- A preview in which every uploaded identifier matched. -/
def cleanPreview : PreviewReport :=
  { valid_updates := [⟨[("master_id", "1"), ("email", "a@b.com")]⟩], invalid_rows := [] }

/-- The operator configures one update column, uploads a file whose preview has no
invalid rows, and presses the execute button. -/
def executePressed : List Event :=
  [ .answer 0 (.schema ["master_id", "name", "email"]),
    .toggleColumn "email",
    .clickNext,
    .chooseFile (some ⟨"students.xlsx"⟩),
    .clickPreviewChanges,
    .answer 0 (.report (.previewReport cleanPreview)),
    .clickExecute ]

/-- The state `executePressed` ends in: the execute request is awaiting its answer. -/
def awaitingExecution : Sys :=
  { st :=
      { step := 3
        selectedTable := "students_details_master"
        columns := ["master_id", "name", "email"]
        identifierColumn := "master_id"
        updateColumns := ["email"]
        file := some ⟨"students.xlsx"⟩
        preview := some (.previewReport cleanPreview)
        error := ""
        loading := true
        proceedWithErrors := false }
    inflight :=
      [Request.execute "students_details_master" "master_id" (some cleanPreview.valid_updates)] }

/-- The operator ticks `email` as a column to update and afterwards picks `email` in
the identifier selector. -/
def identifierPickedLast : List Event :=
  [ .answer 0 (.schema ["master_id", "name", "email"]),
    .toggleColumn "email",
    .changeIdentifier "email" ]

/-- The state `identifierPickedLast` ends in. -/
def identifierAlsoUpdated : Sys :=
  { st :=
      { step := 1
        selectedTable := "students_details_master"
        columns := ["master_id", "name", "email"]
        identifierColumn := "email"
        updateColumns := ["email"]
        file := none
        preview := none
        error := ""
        loading := false
        proceedWithErrors := false }
    inflight := [] }

/-- First preview: one identifier of the file is unknown. -/
def firstPreview : PreviewReport :=
  { valid_updates := [⟨[("master_id", "1"), ("email", "a@b.com")]⟩]
    invalid_rows := [⟨"X99"⟩] }

/-- Second preview, of another file: two other identifiers are unknown. -/
def secondPreview : PreviewReport :=
  { valid_updates := [⟨[("master_id", "2"), ("email", "c@d.com")]⟩]
    invalid_rows := [⟨"Y17"⟩, ⟨"Z03"⟩] }

/-- The operator acknowledges the invalid rows of a first preview, goes back, uploads
another file and receives its preview.  No acknowledgment follows the second preview. -/
def secondUpload : List Event :=
  [ .answer 0 (.schema ["master_id", "name", "email"]),
    .toggleColumn "email",
    .clickNext,
    .chooseFile (some ⟨"first.xlsx"⟩),
    .clickPreviewChanges,
    .answer 0 (.report (.previewReport firstPreview)),
    .setAcknowledge true,
    .clickBackToUpload,
    .chooseFile (some ⟨"second.xlsx"⟩),
    .clickPreviewChanges,
    .answer 0 (.report (.previewReport secondPreview)) ]

/-- The state `secondUpload` ends in. -/
def secondPreviewShown : Sys :=
  { st :=
      { step := 3
        selectedTable := "students_details_master"
        columns := ["master_id", "name", "email"]
        identifierColumn := "master_id"
        updateColumns := ["email"]
        file := some ⟨"second.xlsx"⟩
        preview := some (.previewReport secondPreview)
        error := ""
        loading := false
        proceedWithErrors := true }
    inflight := [] }

/-- The students schema is loaded, then the operator switches the table selector to the
fee table. -/
def tableChangedAfterLoad : List Event :=
  [ .answer 0 (.schema ["master_id", "name", "email"]),
    .changeTable "student_fee_transactions" ]

/-- The state `tableChangedAfterLoad` ends in: the fee schema is being fetched. -/
def feeSchemaPending : Sys :=
  { st :=
      { step := 1
        selectedTable := "student_fee_transactions"
        columns := ["master_id", "name", "email"]
        identifierColumn := "master_id"
        updateColumns := []
        file := none
        preview := none
        error := ""
        loading := true
        proceedWithErrors := false }
    inflight := [Request.tableSchema "student_fee_transactions"] }

/-- The state after that fetch has failed. -/
def feeSchemaFailed : Sys :=
  { st :=
      { step := 1
        selectedTable := "student_fee_transactions"
        columns := ["master_id", "name", "email"]
        identifierColumn := "master_id"
        updateColumns := []
        file := none
        preview := none
        error := "Failed to fetch schema: Failed to fetch"
        loading := false
        proceedWithErrors := false }
    inflight := [] }

/-- The students schema is loaded and `email` ticked; then the operator switches to the
fee table and the schema fetch for it fails. -/
def tableChangedAfterTick : List Event :=
  [ .answer 0 (.schema ["master_id", "name", "email"]),
    .toggleColumn "email",
    .changeTable "student_fee_transactions",
    .answer 0 (.failure "Failed to fetch") ]

/-- The state `tableChangedAfterTick` ends in. -/
def staleSelection : Sys :=
  { st :=
      { step := 1
        selectedTable := "student_fee_transactions"
        columns := ["master_id", "name", "email"]
        identifierColumn := "master_id"
        updateColumns := ["email"]
        file := none
        preview := none
        error := "Failed to fetch schema: Failed to fetch"
        loading := false
        proceedWithErrors := false }
    inflight := [] }

/-- A state of step 2 with a file chosen. -/
def fileChosen : WizardState :=
  { step := 2
    selectedTable := "students_details_master"
    columns := ["master_id", "name", "email"]
    identifierColumn := "master_id"
    updateColumns := ["email"]
    file := some ⟨"students.xlsx"⟩
    preview := none
    error := ""
    loading := false
    proceedWithErrors := false }

/-- A state of step 3 showing a preview with one invalid row, acknowledged. -/
def reviewAcknowledged : WizardState :=
  { step := 3
    selectedTable := "students_details_master"
    columns := ["master_id", "name", "email"]
    identifierColumn := "master_id"
    updateColumns := ["email"]
    file := some ⟨"students.xlsx"⟩
    preview := some (.previewReport firstPreview)
    error := ""
    loading := false
    proceedWithErrors := true }

/-- The final report of scenario D. -/
def doneReport : ExecutionReport :=
  { updated_count := 2, skipped_count := 1, message := "Done" }

/-- A complete pass through the wizard, up to the final report. -/
def fullPass : List Event :=
  [ .answer 0 (.schema ["master_id", "name", "email"]),
    .toggleColumn "email",
    .clickNext,
    .chooseFile (some ⟨"students.xlsx"⟩),
    .clickPreviewChanges,
    .answer 0 (.report (.previewReport cleanPreview)),
    .clickExecute,
    .answer 0 (.report (.executionReport doneReport)) ]

/-- The state `fullPass` ends in. -/
def reportShown : Sys :=
  { st :=
      { step := 4
        selectedTable := "students_details_master"
        columns := ["master_id", "name", "email"]
        identifierColumn := "master_id"
        updateColumns := ["email"]
        file := some ⟨"students.xlsx"⟩
        preview := some (.executionReport doneReport)
        error := ""
        loading := false
        proceedWithErrors := false }
    inflight := [] }

/-- The operator presses "Preview Changes" and, while the upload is awaiting its answer,
"Back to Configuration". -/
def backDuringUpload : List Event :=
  [ .answer 0 (.schema ["master_id", "name", "email"]),
    .toggleColumn "email",
    .clickNext,
    .chooseFile (some ⟨"students.xlsx"⟩),
    .clickPreviewChanges,
    .clickBackToConfiguration ]

/-- After `backDuringUpload` the operator changes the table (whose schema answer clears
`loading`), returns to step 2 and starts a second upload while the first is still
unanswered; the first answer leads through review and execution to the final report. -/
def twoUploads : List Event :=
  backDuringUpload ++
  [ .changeTable "student_fee_transactions",
    .answer 1 (.schema ["txn_id", "amount"]),
    .toggleColumn "amount",
    .clickNext,
    .clickPreviewChanges,
    .answer 0 (.report (.previewReport cleanPreview)),
    .clickExecute,
    .answer 1 (.report (.executionReport doneReport)) ]

/-- Scenario A: the students schema is loaded and `email` is ticked. -/
def emailTicked : WizardState :=
  { step := 1
    selectedTable := "students_details_master"
    columns := ["master_id", "name", "email"]
    identifierColumn := "master_id"
    updateColumns := ["email"]
    file := none
    preview := none
    error := ""
    loading := false
    proceedWithErrors := false }

/-- Scenario C: two valid updates and one unknown identifier. -/
def scenarioC : PreviewReport :=
  { valid_updates :=
      [⟨[("master_id", "1"), ("email", "a@b.com")]⟩, ⟨[("master_id", "2"), ("email", "c@d.com")]⟩]
    invalid_rows := [⟨"X99"⟩] }

/-- Step 3 showing the preview of scenario C, not yet acknowledged. -/
def reviewC : WizardState :=
  { emailTicked with
    step := 3
    file := some ⟨"students.xlsx"⟩
    preview := some (.previewReport scenarioC) }

/-- After `backDuringUpload` the operator changes the table (whose schema answer clears
`loading`), returns to step 2 and presses "Preview Changes" again while the first
upload is still unanswered. -/
def uploadTwice : List Event :=
  backDuringUpload ++
  [ .changeTable "student_fee_transactions",
    .answer 1 (.schema ["txn_id", "amount"]),
    .toggleColumn "amount",
    .clickNext,
    .clickPreviewChanges ]

/-- Two executions are in flight when the first is answered; the operator then starts a
new bulk update.  Every answer to a preview-upload in this run is a PreviewReport. -/
def resetWhileExecuting : List Event :=
  [ .answer 0 (.schema ["master_id", "name", "email"]),
    .toggleColumn "email",
    .clickNext,
    .chooseFile (some ⟨"students.xlsx"⟩),
    .clickPreviewChanges,
    .answer 0 (.report (.previewReport cleanPreview)),
    .clickExecute,
    .clickBackToUpload,
    .clickBackToConfiguration,
    .changeTable "student_fee_transactions",
    .answer 1 (.schema ["txn_id", "amount"]),
    .toggleColumn "amount",
    .clickNext,
    .clickPreviewChanges,
    .answer 1 (.report (.previewReport cleanPreview)),
    .clickExecute,
    .answer 0 (.report (.executionReport doneReport)),
    .clickStartNew ]

/-- A run in turns up to the review of `firstPreview`. -/
def turnsToReview : List (Event × Option Response) :=
  [ (.toggleColumn "email", none),
    (.clickNext, none),
    (.chooseFile (some ⟨"first.xlsx"⟩), none),
    (.clickPreviewChanges, some (.report (.previewReport firstPreview))) ]

/-- The state `turnsToReview` ends in, with its record. -/
def reviewInTurns : Audited :=
  { sys :=
      { st :=
          { step := 3
            selectedTable := "students_details_master"
            columns := ["master_id", "name", "email"]
            identifierColumn := "master_id"
            updateColumns := ["email"]
            file := some ⟨"first.xlsx"⟩
            preview := some (.previewReport firstPreview)
            error := ""
            loading := false
            proceedWithErrors := false }
        inflight := [] }
    validated := some ("students_details_master", "master_id") }

/-- The schema answer repeats `id` and `a`; the operator then picks `a` as the
identifier. -/
def repeatedNames : List Event :=
  [ .answer 0 (.schema ["id", "a", "id", "b", "a"]),
    .changeIdentifier "a" ]

/-- The screen `repeatedNames` ends in: the first checkbox of `a` is left over. -/
def identifierStillOffered : Screen :=
  { sys :=
      { st :=
          { step := 1
            selectedTable := "students_details_master"
            columns := ["id", "a", "id", "b", "a"]
            identifierColumn := "a"
            updateColumns := []
            file := none
            preview := none
            error := ""
            loading := false
            proceedWithErrors := false }
        inflight := [] }
    leftBoxes := ["a"]
    leftOptions := [] }

/-- The students schema repeats `a`; the operator selects the fee table, whose schema
is `k`, `m`, and then ticks the checkbox of `a` that is still on screen. -/
def tickLeftOver : List Event :=
  [ .answer 0 (.schema ["id", "a", "a"]),
    .changeTable "student_fee_transactions",
    .answer 0 (.schema ["k", "m"]),
    .toggleColumn "a" ]

/-- The screen `tickLeftOver` ends in. -/
def foreignColumnTicked : Screen :=
  { sys :=
      { st :=
          { step := 1
            selectedTable := "student_fee_transactions"
            columns := ["k", "m"]
            identifierColumn := "k"
            updateColumns := ["a"]
            file := none
            preview := none
            error := ""
            loading := false
            proceedWithErrors := false }
        inflight := [] }
    leftBoxes := ["a"]
    leftOptions := ["a"] }

/-- The operator loads the students schema, picks `name` as the identifier and ticks
`email`. -/
def identifierChosen : List Event :=
  [ .answer 0 (.schema ["master_id", "name", "email"]),
    .changeIdentifier "name",
    .toggleColumn "email" ]

/-- The screen `identifierChosen` ends in. -/
def nameIdentifies : Screen :=
  { sys :=
      { st :=
          { step := 1
            selectedTable := "students_details_master"
            columns := ["master_id", "name", "email"]
            identifierColumn := "name"
            updateColumns := ["email"]
            file := none
            preview := none
            error := ""
            loading := false
            proceedWithErrors := false }
        inflight := [] }
    leftBoxes := []
    leftOptions := [] }

/-! ## Auxiliary facts -/

theorem append_ne_empty (p m : String) (hp : p ≠ "") : p ++ m ≠ "" := by
  intro h
  have h1 : (p ++ m).length = 0 := by rw [h]; rfl
  rw [String.length_append] at h1
  have h2 : p.length = 0 := by omega
  apply hp
  cases p with
  | mk a =>
    have : a = [] := List.length_eq_zero.mp h2
    subst this
    rfl

theorem jsOr_head (cols : List ColumnName) : jsOr cols.head? "" = cols.headD "" := by
  cases cols with
  | nil => rfl
  | cons c cs =>
    simp only [List.head?_cons, jsOr, List.headD_cons]
    split
    · next h => exact h.symm
    · rfl

theorem fetchSchemaStart_frame (s : WizardState) :
    (fetchSchemaStart s).1.step = s.step ∧
      (fetchSchemaStart s).1.selectedTable = s.selectedTable := by
  unfold fetchSchemaStart
  split <;> simp

theorem deliver_frame (q : Request) (r : Response) (s s1 : WizardState)
    (h : deliver q r s = some s1) :
    (s1.step = s.step ∨ s1.step = 3 ∨ s1.step = 4) ∧ s1.selectedTable = s.selectedTable := by
  cases q <;> cases r <;>
    simp [deliver, fetchSchemaResume, handleDownloadTemplateResume, handleFileUploadResume,
      handleExecuteUpdateResume] at h <;> subst h <;> simp

theorem next_wellFormed (sys sys1 : Sys) (e : Event) (hw : WellFormed sys)
    (h : sys.next e = some sys1) : WellFormed sys1 := by
  obtain ⟨hs, ht⟩ := hw
  cases e with
  | changeTable t =>
    simp only [Sys.next] at h
    split at h
    · next hc =>
      injection h with h; subst h
      have hf := fetchSchemaStart_frame { sys.st with selectedTable := t }
      simp only [WellFormed, Sys.send, selectTable, hf.1, hf.2]
      exact ⟨hs, hc.2.1⟩
    · cases h
  | changeIdentifier c =>
    simp only [Sys.next] at h
    split at h
    · injection h with h; subst h; exact ⟨hs, ht⟩
    · cases h
  | toggleColumn c =>
    simp only [Sys.next] at h
    split at h
    · injection h with h; subst h; exact ⟨hs, ht⟩
    · cases h
  | clickDownloadTemplate =>
    simp only [Sys.next] at h
    split at h
    · injection h with h; subst h
      simp only [WellFormed, Sys.send, handleDownloadTemplateStart]
      split <;> exact ⟨hs, ht⟩
    · cases h
  | clickNext =>
    simp only [Sys.next] at h
    split at h
    · injection h with h; subst h; exact ⟨Or.inr (Or.inl rfl), ht⟩
    · cases h
  | chooseFile f =>
    simp only [Sys.next] at h
    split at h
    · injection h with h; subst h; exact ⟨hs, ht⟩
    · cases h
  | clickBackToConfiguration =>
    simp only [Sys.next] at h
    split at h
    · injection h with h; subst h; exact ⟨Or.inl rfl, ht⟩
    · cases h
  | clickPreviewChanges =>
    simp only [Sys.next] at h
    split at h
    · injection h with h; subst h
      simp only [WellFormed, Sys.send, handleFileUploadStart]
      split <;> exact ⟨hs, ht⟩
    · cases h
  | setAcknowledge b =>
    simp only [Sys.next] at h
    split at h
    · split at h
      · split at h
        · injection h with h; subst h; exact ⟨hs, ht⟩
        · cases h
      · cases h
    · cases h
  | clickBackToUpload =>
    simp only [Sys.next] at h
    split at h
    · split at h
      · injection h with h; subst h; exact ⟨Or.inr (Or.inl rfl), ht⟩
      · cases h
    · cases h
  | clickExecute =>
    simp only [Sys.next] at h
    split at h
    · split at h
      · split at h
        · cases h
        · injection h with h; subst h
          simp only [WellFormed, Sys.send, handleExecuteUpdateStart]
          split <;> exact ⟨hs, ht⟩
      · cases h
    · cases h
  | clickStartNew =>
    simp only [Sys.next] at h
    split at h
    · injection h with h; subst h
      have hf := fetchSchemaStart_frame
        { sys.st with step := 1, file := none, preview := none, error := "",
                      proceedWithErrors := false }
      refine ⟨Or.inl ?_, ?_⟩
      · simp only [Sys.send, resetProcess, hf.1]
      · simp only [Sys.send, resetProcess, hf.2]
        exact ht
    · cases h
  | answer i r =>
    simp only [Sys.next] at h
    split at h
    · next q hq =>
      split at h
      · next s hd =>
        injection h with h; subst h
        have hf := deliver_frame q r sys.st s hd
        refine ⟨?_, by simpa [hf.2] using ht⟩
        simp only
        rcases hf.1 with h1 | h1 | h1
        · rw [h1]; exact hs
        · exact Or.inr (Or.inr (Or.inl h1))
        · exact Or.inr (Or.inr (Or.inr h1))
      · cases h
    · cases h

theorem run_wellFormed (es : List Event) (sys sys1 : Sys) (hw : WellFormed sys)
    (h : sys.run es = some sys1) : WellFormed sys1 := by
  induction es generalizing sys with
  | nil =>
    simp only [Sys.run] at h
    injection h with h; subst h; exact hw
  | cons e es ih =>
    simp only [Sys.run] at h
    split at h
    · next sys2 h2 => exact ih sys2 (next_wellFormed sys sys2 e hw h2) h
    · cases h

theorem mounted_wellFormed : WellFormed mounted := by
  refine ⟨Or.inl rfl, ?_⟩
  decide

theorem reachable_wellFormed (sys : Sys) (h : Reachable sys) : WellFormed sys := by
  obtain ⟨es, hes⟩ := h
  exact run_wellFormed es mounted sys mounted_wellFormed hes

/-- The answer to the request at position `i` is delivered to its continuation. -/
theorem answer_at (sys : Sys) (i : Nat) (q : Request) (r : Response) (s1 : WizardState)
    (hq : sys.inflight.get? i = some q) (hd : deliver q r sys.st = some s1) :
    sys.next (.answer i r) = some { st := s1, inflight := sys.inflight.eraseIdx i } := by
  simp only [Sys.next, hq, hd]

/-- The answer to the request sent last is delivered to its continuation. -/
theorem answer_last (s : WizardState) (fl : List Request) (q : Request) (r : Response)
    (s1 : WizardState) (h : deliver q r s = some s1) :
    Sys.next { st := s, inflight := fl ++ [q] } (.answer fl.length r) =
      some { st := s1, inflight := fl } := by
  simp [Sys.next, h, List.get?_eq_getElem?,
    List.eraseIdx_append_of_length_le (Nat.le_refl fl.length) [q]]

/-! ## The execute gate of step 3 -/

/-- C1, as stated, fails: in a reachable state at step 3 whose preview has no invalid
rows the execute button is disabled (and the click impossible) because `loading` is
true, although "invalid_rows non-empty and proceedWithErrors false" does not hold. -/
theorem C1_blocked_while_loading :
    mounted.run executePressed = some awaitingExecution ∧
      awaitingExecution.st.step = 3 ∧
      awaitingExecution.st.preview = some (.previewReport cleanPreview) ∧
      (renderStep3 awaitingExecution.st).map Step3View.executeDisabled = some true ∧
      awaitingExecution.next .clickExecute = none ∧
      ¬ (cleanPreview.invalid_rows ≠ [] ∧ awaitingExecution.st.proceedWithErrors = false) := by
  decide

/-- C1, amended: at step 3 with a preview present, `renderStep3` succeeds and the
execute button is disabled, equivalently the execute click cannot happen, if and only
if `loading` is true or (`invalid_rows` is non-empty and `proceedWithErrors` is false). -/
theorem C1_execute_blocked_iff (s : WizardState) (p : PreviewReport) (fl : List Request)
    (h3 : s.step = 3) (hp : s.preview = some (.previewReport p)) :
    ∃ v, renderStep3 s = some v ∧
      (v.executeDisabled = true ↔
        (s.loading = true ∨ (p.invalid_rows ≠ [] ∧ s.proceedWithErrors = false))) ∧
      (Sys.next { st := s, inflight := fl } .clickExecute = none ↔
        (s.loading = true ∨ (p.invalid_rows ≠ [] ∧ s.proceedWithErrors = false))) := by
  have hpos : (0 < p.invalid_rows.length) ↔ p.invalid_rows ≠ [] := List.length_pos
  refine ⟨_, by simp only [renderStep3, hp, Report.valid_updates, Report.invalid_rows]; rfl, ?_, ?_⟩
  · cases hl : s.loading <;> simp [hpos]
  · simp only [Sys.next, h3, renderStep3, hp, Report.valid_updates, Report.invalid_rows]
    cases hl : s.loading <;> simp [hpos]

/-- Witness for `C1_execute_blocked_iff`: the state reached by `executePressed`. -/
theorem C1_execute_blocked_iff_witness :
    awaitingExecution.st.step = 3 ∧
    awaitingExecution.st.preview = some (.previewReport cleanPreview) ∧
    ∃ v, renderStep3 awaitingExecution.st = some v ∧
      (v.executeDisabled = true ↔
        (awaitingExecution.st.loading = true ∨
          (cleanPreview.invalid_rows ≠ [] ∧ awaitingExecution.st.proceedWithErrors = false))) ∧
      (Sys.next { st := awaitingExecution.st, inflight := awaitingExecution.inflight }
          .clickExecute = none ↔
        (awaitingExecution.st.loading = true ∨
          (cleanPreview.invalid_rows ≠ [] ∧ awaitingExecution.st.proceedWithErrors = false))) :=
  ⟨rfl, rfl,
    C1_execute_blocked_iff awaitingExecution.st cleanPreview awaitingExecution.inflight rfl rfl⟩

/-! ## The identifier column and the update columns -/

/-- C2 fails on the code: the `onChange` of the identifier selector only calls
`setIdentifierColumn`, so a column ticked before stays in `updateColumns` when it
becomes the identifier.  The checklist no longer shows it (it cannot be unticked),
both buttons of step 1 are enabled, and the template request names `email` as
identifier and as update column. -/
theorem C2_identifier_in_updateColumns :
    mounted.run identifierPickedLast = some identifierAlsoUpdated ∧
      identifierAlsoUpdated.st.identifierColumn ∈ identifierAlsoUpdated.st.updateColumns ∧
      identifierAlsoUpdated.st.identifierColumn ∉ checklist identifierAlsoUpdated.st ∧
      nextDisabled identifierAlsoUpdated.st = false ∧
      (identifierAlsoUpdated.next .clickDownloadTemplate).map Sys.inflight =
        some [Request.downloadTemplate "students_details_master" "email" ["email"]] := by
  decide

/-! ## The acknowledgment and a second preview -/

/-- C3 fails on the code: `handleFileUpload` stores the new preview without resetting
`proceedWithErrors` (only `resetProcess` resets it), so right after the second preview
arrives, with invalid rows and no acknowledgment given for it, the checkbox is still
checked, the execute button is enabled, and the click sends the execute request. -/
theorem C3_stale_acknowledgment :
    mounted.run secondUpload = some secondPreviewShown ∧
      secondPreviewShown.st.preview = some (.previewReport secondPreview) ∧
      secondPreview.invalid_rows ≠ [] ∧
      (renderStep3 secondPreviewShown.st).map Step3View.ackChecked = some true ∧
      (renderStep3 secondPreviewShown.st).map Step3View.executeDisabled = some false ∧
      (secondPreviewShown.next .clickExecute).map Sys.inflight =
        some [Request.execute "students_details_master" "master_id"
          (some secondPreview.valid_updates)] := by
  decide

/-! ## Loading the schema -/

/-- C4: changing the table selector to `T` sends the schema request for `T`, and when the
Schema Service answers it with `cols` the state has `selectedTable = T`,
`columns = cols`, `identifierColumn` the first element of `cols` (the empty string for
an empty schema) and `updateColumns` empty; the same holds for the fetch started on
mount, and in whatever state the schema answer arrives it sets these three fields so. -/
theorem C4_select_table (sys : Sys) (T : String) (cols : List ColumnName)
    (h1 : sys.st.step = 1) (hT : T ∈ tableOptions) (hne : T ≠ sys.st.selectedTable) :
    (∃ sys1 sys2, sys.next (.changeTable T) = some sys1 ∧
      sys1.inflight = sys.inflight ++ [Request.tableSchema T] ∧
      sys1.next (.answer sys.inflight.length (.schema cols)) = some sys2 ∧
      sys2.st.selectedTable = T ∧
      sys2.st.columns = cols ∧
      sys2.st.identifierColumn = cols.headD "" ∧
      sys2.st.updateColumns = []) ∧
    (∃ sys2, mounted.next (.answer 0 (.schema cols)) = some sys2 ∧
      sys2.st.columns = cols ∧
      sys2.st.identifierColumn = cols.headD "" ∧
      sys2.st.updateColumns = []) ∧
    (∀ t : WizardState, ∃ t1, fetchSchemaResume (.schema cols) t = some t1 ∧
      t1.columns = cols ∧
      t1.identifierColumn = cols.headD "" ∧
      t1.updateColumns = []) := by
  have hT0 : T ≠ "" := by
    intro h
    subst h
    exact absurd hT (by decide)
  have e1 : sys.next (.changeTable T) =
      some { st := { sys.st with selectedTable := T, loading := true, error := "" },
             inflight := sys.inflight ++ [Request.tableSchema T] } := by
    simp [Sys.next, h1, hT, hne, Sys.send, selectTable, fetchSchemaStart, hT0]
  refine ⟨?_, ?_, ?_⟩
  · exact ⟨_, _, e1, rfl, answer_last _ _ _ _ _ rfl, rfl, rfl, jsOr_head cols, rfl⟩
  · exact ⟨_, answer_last _ [] _ _ _ rfl, rfl, jsOr_head cols, rfl⟩
  · exact fun t => ⟨_, rfl, rfl, jsOr_head cols, rfl⟩

/-- Witness for `C4_select_table`: the mounted component switches to the fee table. -/
theorem C4_select_table_witness :
    mounted.st.step = 1 ∧
    "student_fee_transactions" ∈ tableOptions ∧
    "student_fee_transactions" ≠ mounted.st.selectedTable ∧
    ((∃ sys1 sys2, mounted.next (.changeTable "student_fee_transactions") = some sys1 ∧
      sys1.inflight = mounted.inflight ++ [Request.tableSchema "student_fee_transactions"] ∧
      sys1.next (.answer mounted.inflight.length (.schema ["txn_id", "amount"])) = some sys2 ∧
      sys2.st.selectedTable = "student_fee_transactions" ∧
      sys2.st.columns = ["txn_id", "amount"] ∧
      sys2.st.identifierColumn = ["txn_id", "amount"].headD "" ∧
      sys2.st.updateColumns = []) ∧
    (∃ sys2, mounted.next (.answer 0 (.schema ["txn_id", "amount"])) = some sys2 ∧
      sys2.st.columns = ["txn_id", "amount"] ∧
      sys2.st.identifierColumn = ["txn_id", "amount"].headD "" ∧
      sys2.st.updateColumns = []) ∧
    (∀ t : WizardState, ∃ t1, fetchSchemaResume (.schema ["txn_id", "amount"]) t = some t1 ∧
      t1.columns = ["txn_id", "amount"] ∧
      t1.identifierColumn = ["txn_id", "amount"].headD "" ∧
      t1.updateColumns = [])) :=
  ⟨by decide, by decide, by decide,
    C4_select_table mounted "student_fee_transactions" ["txn_id", "amount"] (by decide)
      (by decide) (by decide)⟩

/-- C5 fails on the code: the fee schema fetch started by a table change fails, and
`columns` still holds the students schema afterwards.  `fetchSchema` never clears
`columns` before its request, unlike the `fetchSchema` of the data viewer. -/
theorem C5_columns_kept_on_failure :
    mounted.run tableChangedAfterLoad = some feeSchemaPending ∧
      feeSchemaPending.inflight = [Request.tableSchema "student_fee_transactions"] ∧
      feeSchemaPending.next (.answer 0 (.failure "Failed to fetch")) = some feeSchemaFailed ∧
      feeSchemaFailed.st.columns ≠ [] := by
  decide

/-- C6 fails on the code: right after the schema fetch for the newly selected fee table
has failed, "Next" is enabled (the click leads to step 2) and "Download Template" sends
a request for the fee table with the columns of the students table.  Only the success
branch of `fetchSchema` discards the old selection; the `catch` branch keeps it. -/
theorem C6_next_enabled_after_failure :
    mounted.run tableChangedAfterTick = some staleSelection ∧
      staleSelection.st.selectedTable = "student_fee_transactions" ∧
      nextDisabled staleSelection.st = false ∧
      (staleSelection.next .clickNext).map (fun sys => sys.st.step) = some 2 ∧
      (staleSelection.next .clickDownloadTemplate).map Sys.inflight =
        some [Request.downloadTemplate "student_fee_transactions" "master_id" ["email"]] := by
  decide

/-! ## Failures of the upload and of the execution -/

/-- C7: from a state at step 2 with a file selected, `handleFileUpload` sends the
preview-upload request, and when that request fails (with whatever message) the
resulting state is still at step 2, has `error` set to the non-empty text
"Upload failed: " followed by the message, and has the same `columns`,
`identifierColumn` and `preview` as before; in whatever state the failure arrives, it
changes none of `step`, `columns`, `identifierColumn` and `preview`. -/
theorem C7_upload_failure (s : WizardState) (f : FileRef) (m : String)
    (h2 : s.step = 2) (hf : s.file = some f) :
    (handleFileUploadStart s).2 = [Request.previewUpload f s.selectedTable s.identifierColumn] ∧
    ∃ s1, handleFileUploadResume (.failure m) (handleFileUploadStart s).1 = some s1 ∧
      s1.step = 2 ∧
      s1.error = "Upload failed: " ++ m ∧
      s1.error ≠ "" ∧
      s1.columns = s.columns ∧
      s1.identifierColumn = s.identifierColumn ∧
      s1.preview = s.preview ∧
      ∀ t : WizardState, ∃ t1, handleFileUploadResume (.failure m) t = some t1 ∧
        t1.step = t.step ∧ t1.columns = t.columns ∧
        t1.identifierColumn = t.identifierColumn ∧ t1.preview = t.preview := by
  have hne : "Upload failed: " ++ m ≠ "" := append_ne_empty _ m (by decide)
  have e : handleFileUploadStart s =
      ({ s with error := "", loading := true },
        [Request.previewUpload f s.selectedTable s.identifierColumn]) := by
    simp only [handleFileUploadStart, hf]
  rw [e]
  exact ⟨rfl, _, rfl, h2, rfl, hne, rfl, rfl, rfl, fun t => ⟨_, rfl, rfl, rfl, rfl, rfl⟩⟩

/-- Witness for `C7_upload_failure`: the upload of `students.xlsx` is rejected. -/
theorem C7_upload_failure_witness :
    fileChosen.step = 2 ∧ fileChosen.file = some ⟨"students.xlsx"⟩ ∧
    ((handleFileUploadStart fileChosen).2 =
        [Request.previewUpload ⟨"students.xlsx"⟩ fileChosen.selectedTable
          fileChosen.identifierColumn] ∧
    ∃ s1, handleFileUploadResume (.failure "Missing column: email")
        (handleFileUploadStart fileChosen).1 = some s1 ∧
      s1.step = 2 ∧
      s1.error = "Upload failed: " ++ "Missing column: email" ∧
      s1.error ≠ "" ∧
      s1.columns = fileChosen.columns ∧
      s1.identifierColumn = fileChosen.identifierColumn ∧
      s1.preview = fileChosen.preview ∧
      ∀ t : WizardState, ∃ t1,
        handleFileUploadResume (.failure "Missing column: email") t = some t1 ∧
        t1.step = t.step ∧ t1.columns = t.columns ∧
        t1.identifierColumn = t.identifierColumn ∧ t1.preview = t.preview) :=
  ⟨rfl, rfl, C7_upload_failure fileChosen ⟨"students.xlsx"⟩ "Missing column: email" rfl rfl⟩

/-- C8: from a state at step 3 with a preview, `handleExecuteUpdate` sends the execute
request, and when that request fails the resulting state is still at step 3, has `error`
set to the non-empty text "Execution failed: " followed by the message, and has the same
`preview` and `proceedWithErrors` as before; pressing execute again sends the same
request, and when `loading` was false before, step 3 renders exactly as before (the
button is as enabled as it was). -/
theorem C8_execute_failure (s : WizardState) (r : Report) (m : String)
    (h3 : s.step = 3) (hp : s.preview = some r) :
    (handleExecuteUpdateStart s).2 =
        [Request.execute s.selectedTable s.identifierColumn r.valid_updates] ∧
    ∃ s1, handleExecuteUpdateResume (.failure m) (handleExecuteUpdateStart s).1 = some s1 ∧
      s1.step = 3 ∧
      s1.error = "Execution failed: " ++ m ∧
      s1.error ≠ "" ∧
      s1.preview = s.preview ∧
      s1.proceedWithErrors = s.proceedWithErrors ∧
      (handleExecuteUpdateStart s1).2 = (handleExecuteUpdateStart s).2 ∧
      (s.loading = false → renderStep3 s1 = renderStep3 s) := by
  have hne : "Execution failed: " ++ m ≠ "" := append_ne_empty _ m (by decide)
  have e : handleExecuteUpdateStart s =
      ({ s with loading := true, error := "" },
        [Request.execute s.selectedTable s.identifierColumn r.valid_updates]) := by
    simp only [handleExecuteUpdateStart, hp]
  rw [e]
  refine ⟨rfl, _, rfl, h3, rfl, hne, hp.symm ▸ rfl, rfl, ?_, ?_⟩
  · simp only [handleExecuteUpdateStart, hp]
  · intro hl
    simp only [renderStep3, hp, hl]

/-- Witness for `C8_execute_failure`: the execution of an acknowledged preview fails. -/
theorem C8_execute_failure_witness :
    reviewAcknowledged.step = 3 ∧
    reviewAcknowledged.preview = some (.previewReport firstPreview) ∧
    ((handleExecuteUpdateStart reviewAcknowledged).2 =
        [Request.execute reviewAcknowledged.selectedTable reviewAcknowledged.identifierColumn
          (Report.previewReport firstPreview).valid_updates] ∧
    ∃ s1, handleExecuteUpdateResume (.failure "Database is locked")
        (handleExecuteUpdateStart reviewAcknowledged).1 = some s1 ∧
      s1.step = 3 ∧
      s1.error = "Execution failed: " ++ "Database is locked" ∧
      s1.error ≠ "" ∧
      s1.preview = reviewAcknowledged.preview ∧
      s1.proceedWithErrors = reviewAcknowledged.proceedWithErrors ∧
      (handleExecuteUpdateStart s1).2 = (handleExecuteUpdateStart reviewAcknowledged).2 ∧
      (reviewAcknowledged.loading = false → renderStep3 s1 = renderStep3 reviewAcknowledged)) :=
  ⟨rfl, rfl,
    C8_execute_failure reviewAcknowledged (.previewReport firstPreview) "Database is locked"
      rfl rfl⟩

/-! ## Reset -/

/-- C9: in every reachable state at step 4, "Start New Bulk Update" can be clicked, and
`resetProcess` then sets `step` to 1, `file` and `preview` to null, `error` to the empty
string and `proceedWithErrors` to false, keeps `selectedTable`, and sends a schema
request for `selectedTable` (with `loading` set). -/
theorem C9_reset (sys : Sys) (hr : Reachable sys) (h4 : sys.st.step = 4) :
    ∃ sys1, sys.next .clickStartNew = some sys1 ∧
      sys1.st.step = 1 ∧
      sys1.st.file = none ∧
      sys1.st.preview = none ∧
      sys1.st.error = "" ∧
      sys1.st.proceedWithErrors = false ∧
      sys1.st.selectedTable = sys.st.selectedTable ∧
      sys1.inflight = sys.inflight ++ [Request.tableSchema sys.st.selectedTable] ∧
      sys1.st.loading = true := by
  have ht : sys.st.selectedTable ≠ "" := by
    intro h
    have hw := (reachable_wellFormed sys hr).2
    rw [h] at hw
    exact absurd hw (by decide)
  refine ⟨sys.send resetProcess, by simp [Sys.next, h4], ?_⟩
  simp [Sys.send, resetProcess, fetchSchemaStart, ht]

/-- Witness for `C9_reset`: the state at the end of a complete pass. -/
theorem C9_reset_witness :
    Reachable reportShown ∧ reportShown.st.step = 4 ∧
    ∃ sys1, reportShown.next .clickStartNew = some sys1 ∧
      sys1.st.step = 1 ∧
      sys1.st.file = none ∧
      sys1.st.preview = none ∧
      sys1.st.error = "" ∧
      sys1.st.proceedWithErrors = false ∧
      sys1.st.selectedTable = reportShown.st.selectedTable ∧
      sys1.inflight = reportShown.inflight ++ [Request.tableSchema reportShown.st.selectedTable] ∧
      sys1.st.loading = true :=
  ⟨⟨fullPass, by decide⟩, rfl, C9_reset reportShown ⟨fullPass, by decide⟩ rfl⟩

/-! ## The edges of the step field -/

/-- C10 fails on the code: "Back to Configuration" is not disabled while the upload is
in flight, so the answer finds the wizard at step 1 and `setStep(3)` moves it from 1 to
3; and with two uploads in flight the answer to the second arrives at step 4 and moves
the wizard from 4 to 3 without any reset. -/
theorem C10_step_jumps :
    (mounted.run backDuringUpload).map (fun sys => sys.st.step) = some 1 ∧
      (mounted.run (backDuringUpload ++ [.answer 0 (.report (.previewReport cleanPreview))])).map
        (fun sys => sys.st.step) = some 3 ∧
      (mounted.run twoUploads).map (fun sys => sys.st.step) = some 4 ∧
      (mounted.run (twoUploads ++ [.answer 0 (.report (.previewReport firstPreview))])).map
        (fun sys => sys.st.step) = some 3 := by
  decide

/-! ## The controls of step 1 -/

/-- C11: whatever `identifierColumn` and `loading` are, the "Download Template" button is
disabled when `updateColumns` is empty; when `loading` is false it is enabled exactly
when `updateColumns` is non-empty; `identifierColumn` has no influence on it. -/
theorem C11_download_template_button (s : WizardState) :
    (s.updateColumns = [] → downloadTemplateDisabled s = true) ∧
    (s.loading = false → (downloadTemplateDisabled s = false ↔ s.updateColumns ≠ [])) ∧
    (∀ c : ColumnName,
      downloadTemplateDisabled { s with identifierColumn := c } = downloadTemplateDisabled s) := by
  refine ⟨?_, ?_, fun _ => rfl⟩
  · intro h
    simp [downloadTemplateDisabled, h]
  · intro h
    simp [downloadTemplateDisabled, h]

/-- Witness for `C11_download_template_button`: scenario A, schema
`[master_id, name, email]` with `updateColumns = [email]`, where the button is enabled. -/
theorem C11_download_template_button_witness :
    emailTicked.loading = false ∧ emailTicked.updateColumns ≠ [] ∧
    downloadTemplateDisabled emailTicked = false ∧
    downloadTemplateDisabled { emailTicked with updateColumns := [] } = true :=
  ⟨rfl, by decide,
    ((C11_download_template_button emailTicked).2.1 rfl).mpr (by decide),
    (C11_download_template_button { emailTicked with updateColumns := [] }).1 rfl⟩

/-- The source's `filter` and the specification's wording agree on every list. -/
theorem filter_eq_withoutIdentifier (x : ColumnName) (cols : List ColumnName) :
    cols.filter (fun c => c != x) = withoutIdentifier x cols := by
  induction cols with
  | nil => rfl
  | cons c cs ih =>
    by_cases h : c = x
    · simp [List.filter_cons, withoutIdentifier, h, ← ih]
    · simp [List.filter_cons, withoutIdentifier, h, ← ih]

/-- C16: at step 1 the "Next" button is enabled, and the click possible, if and only if
`updateColumns` is non-empty; the click sets `step` to 2, leaves every other field as
it was and sends no request. -/
theorem C16_next_navigation (sys : Sys) (h1 : sys.st.step = 1) :
    (nextDisabled sys.st = false ↔ sys.st.updateColumns ≠ []) ∧
    ((sys.next .clickNext).isSome = true ↔ sys.st.updateColumns ≠ []) ∧
    (sys.st.updateColumns ≠ [] →
      sys.next .clickNext =
        some { st := { sys.st with step := 2 }, inflight := sys.inflight }) := by
  have hd : nextDisabled sys.st = false ↔ sys.st.updateColumns ≠ [] := by
    simp [nextDisabled]
  refine ⟨hd, ?_, ?_⟩
  · by_cases h : sys.st.updateColumns = []
    · simp [Sys.next, h1, nextDisabled, h]
    · simp [Sys.next, h1, nextDisabled, h]
  · intro h
    simp [Sys.next, h1, nextDisabled, h]

/-- Witness for `C16_next_navigation`: scenario A with nothing in flight. -/
theorem C16_next_navigation_witness :
    emailTicked.step = 1 ∧
    ((nextDisabled emailTicked = false ↔ emailTicked.updateColumns ≠ []) ∧
    ((Sys.next { st := emailTicked, inflight := [] } .clickNext).isSome = true ↔
      emailTicked.updateColumns ≠ []) ∧
    (emailTicked.updateColumns ≠ [] →
      Sys.next { st := emailTicked, inflight := [] } .clickNext =
        some { st := { emailTicked with step := 2 }, inflight := [] })) :=
  ⟨rfl, C16_next_navigation { st := emailTicked, inflight := [] } rfl⟩

/-! ## The execute button, the execute request and the final report -/

/-- C13: with a preview and `loading` false, the execute button reads "Update N Records"
with N the number of entries of `preview.valid_updates`; replacing `invalid_rows` or
`proceedWithErrors` by anything else leaves the label as it is; and with `invalid_rows`
empty the button is enabled whatever `proceedWithErrors` is. -/
theorem C13_execute_label (s : WizardState) (p : PreviewReport)
    (hp : s.preview = some (.previewReport p)) (hl : s.loading = false) :
    ∃ v, renderStep3 s = some v ∧
      v.executeLabel = "Update " ++ toString p.valid_updates.length ++ " Records" ∧
      (∀ (rows : List InvalidRow) (b : Bool),
        (renderStep3
            { s with
              preview := some (.previewReport { p with invalid_rows := rows })
              proceedWithErrors := b }).map Step3View.executeLabel = some v.executeLabel) ∧
      (p.invalid_rows = [] → v.executeDisabled = false) := by
  refine ⟨_, by simp only [renderStep3, hp, Report.valid_updates, Report.invalid_rows]; rfl,
    ?_, ?_, ?_⟩
  · simp [hl]
  · intro rows b
    simp [renderStep3, Report.valid_updates, Report.invalid_rows, hl]
  · intro h
    simp [hl, h]

/-- Witness for `C13_execute_label`: scenario C, whose button reads "Update 2 Records"
before and after the acknowledgment. -/
theorem C13_execute_label_witness :
    reviewC.preview = some (.previewReport scenarioC) ∧ reviewC.loading = false ∧
    (renderStep3 reviewC).map Step3View.executeLabel = some "Update 2 Records" ∧
    (renderStep3 { reviewC with proceedWithErrors := true }).map Step3View.executeLabel =
      some "Update 2 Records" ∧
    ∃ v, renderStep3 reviewC = some v ∧
      v.executeLabel = "Update " ++ toString scenarioC.valid_updates.length ++ " Records" ∧
      (∀ (rows : List InvalidRow) (b : Bool),
        (renderStep3
            { reviewC with
              preview := some (.previewReport { scenarioC with invalid_rows := rows })
              proceedWithErrors := b }).map Step3View.executeLabel = some v.executeLabel) ∧
      (scenarioC.invalid_rows = [] → v.executeDisabled = false) :=
  ⟨rfl, rfl, by decide, by decide, C13_execute_label reviewC scenarioC rfl rfl⟩

/-- C14: when the execute request is answered with an ExecutionReport, the continuation
of `handleExecuteUpdate` sets `step` to 4 and stores the report in `preview`, and
`renderStep4` then shows `updated_count`, `skipped_count` and `message` of that report. -/
theorem C14_execution_report (s : WizardState) (e : ExecutionReport) :
    ∃ s1,
      handleExecuteUpdateResume (apiAnswer (.ok (.value (.report (.executionReport e))))) s =
        some s1 ∧
      s1.step = 4 ∧
      s1.preview = some (.executionReport e) ∧
      renderStep4 s1 =
        { counts := some (some e.updated_count, some e.skipped_count)
          finalMessage := some e.message } :=
  ⟨_, rfl, rfl, rfl, rfl⟩

/-- C15: with a preview stored, `handleExecuteUpdate` sends one request, whose
`table_name` is `selectedTable`, whose `identifier_column` is `identifierColumn` and
whose `updates` is the list `preview.valid_updates` itself; with `preview` null it sends
nothing and returns the state it got. -/
theorem C15_execute_request (s : WizardState) :
    (∀ p : PreviewReport, s.preview = some (.previewReport p) →
      (handleExecuteUpdateStart s).2 =
        [Request.execute s.selectedTable s.identifierColumn (some p.valid_updates)]) ∧
    (s.preview = none → handleExecuteUpdateStart s = (s, [])) := by
  constructor
  · intro p hp
    simp only [handleExecuteUpdateStart, hp, Report.valid_updates]
  · intro hp
    simp only [handleExecuteUpdateStart, hp]

/-- Witness for `C15_execute_request`: the acknowledged review of `firstPreview`, and the
initial state, which has no preview. -/
theorem C15_execute_request_witness :
    reviewAcknowledged.preview = some (.previewReport firstPreview) ∧
    (handleExecuteUpdateStart reviewAcknowledged).2 =
      [Request.execute "students_details_master" "master_id"
        (some [⟨[("master_id", "1"), ("email", "a@b.com")]⟩])] ∧
    initialState.preview = none ∧
    handleExecuteUpdateStart initialState = (initialState, []) :=
  ⟨rfl, (C15_execute_request reviewAcknowledged).1 firstPreview rfl,
    rfl, (C15_execute_request initialState).2 rfl⟩

/-! ## Requests while `loading` is true -/

/-- C17 fails on the code: the table selector, "Next" and the two "Back" buttons carry
no `disabled` on `loading`.  Right after mount (`loading` true, schema request in
flight) a change of table sends a second request; "Back to Configuration" is taken
while the upload is in flight; and after the schema answer of a table change has cleared
the shared `loading` flag, "Preview Changes" is pressed again, so that two preview
uploads await their answers at once. -/
theorem C17_requests_overlap :
    mounted.st.loading = true ∧
      (mounted.next (.changeTable "student_fee_transactions")).map
          (fun sys => (sys.st.loading, sys.inflight)) =
        some (true, [Request.tableSchema "students_details_master",
          Request.tableSchema "student_fee_transactions"]) ∧
      (mounted.run backDuringUpload).map
          (fun sys => (sys.st.loading, sys.st.step, sys.inflight)) =
        some (true, 1,
          [Request.previewUpload ⟨"students.xlsx"⟩ "students_details_master" "master_id"]) ∧
      (mounted.run uploadTwice).map Sys.inflight =
        some [Request.previewUpload ⟨"students.xlsx"⟩ "students_details_master" "master_id",
          Request.previewUpload ⟨"students.xlsx"⟩ "student_fee_transactions" "txn_id"] := by
  decide

/-! ## Error messages of non-success answers -/

/-- Every handler's `catch` writes its own text followed by the message of the error. -/
theorem deliver_failure (q : Request) (m : String) (s : WizardState) :
    deliver q (.failure m) s =
      some { s with error := failurePrefix q ++ m, loading := false } := by
  cases q <;> rfl

/-- None of the four texts is empty. -/
theorem failurePrefix_ne_empty (q : Request) : failurePrefix q ≠ "" := by
  cases q <;> simp only [failurePrefix] <;> decide

/-- C18, as stated, fails twice.  The preview-upload is answered with status 400 and a
JSON body whose `error` is "Missing column: email": the banner shows
"Upload failed: Missing column: email", not the `error` field verbatim.  And it is
answered with status 500 and the JSON body `null`: the banner shows the handler's text
followed by the message of the `TypeError` (here the one V8 gives), not the generic
message. -/
theorem C18_banner_is_prefixed :
    (deliver (Request.previewUpload ⟨"students.xlsx"⟩ "students_details_master" "master_id")
        (apiAnswer (.notOk 400 (.value (.fields (some "Missing column: email")))))
        fileChosen).map errorBanner =
      some (some "Upload failed: Missing column: email") ∧
    "Upload failed: Missing column: email" ≠ "Missing column: email" ∧
    (deliver (Request.previewUpload ⟨"students.xlsx"⟩ "students_details_master" "master_id")
        (apiAnswer
          (.notOk 500
            (.value (.jsonNull "Cannot read properties of null (reading \x27error\x27)"))))
        fileChosen).map errorBanner =
      some (some "Upload failed: Cannot read properties of null (reading \x27error\x27)") ∧
    "Upload failed: Cannot read properties of null (reading \x27error\x27)" ≠
      "HTTP error! status: 500" := by
  decide

/-- C18, amended: for a non-success answer with status `status` whose body is a JSON
value other than `null`, the handler that sent the request sets `error`, which the
banner shows as it is, to its own text ("Failed to fetch schema: ",
"Failed to download template: ", "Upload failed: " or "Execution failed: ") followed by
the `error` field of the body when that field is a non-empty string, and followed by
"HTTP error! status: " and the status when the body has no `error` field or an empty
one. -/
theorem C18_error_message (q : Request) (s : WizardState) (status : Nat)
    (error : Option String) :
    ∃ s1, deliver q (apiAnswer (.notOk status (.value (.fields error)))) s = some s1 ∧
      errorBanner s1 = some s1.error ∧
      (∀ e, error = some e → e ≠ "" → s1.error = failurePrefix q ++ e) ∧
      (error = none ∨ error = some "" →
        s1.error = failurePrefix q ++ ("HTTP error! status: " ++ toString status)) := by
  refine ⟨_, deliver_failure q _ s, ?_, ?_, ?_⟩
  · have h := append_ne_empty (failurePrefix q) (httpErrorMessage status error)
      (failurePrefix_ne_empty q)
    simp only [errorBanner]
    rw [if_neg h]
  · intro e he hne
    subst he
    simp [httpErrorMessage, jsOr, hne]
  · intro h
    rcases h with h | h <;> subst h <;> simp [httpErrorMessage, jsOr]

/-- Witness for `C18_error_message`: status 400 with an `error` field, and status 500
without one, both for the preview-upload. -/
theorem C18_error_message_witness :
    (∃ s1, deliver (Request.previewUpload ⟨"students.xlsx"⟩ "students_details_master"
          "master_id")
        (apiAnswer (.notOk 400 (.value (.fields (some "Missing column: email")))))
        fileChosen = some s1 ∧
      errorBanner s1 = some s1.error ∧
      (∀ e, some "Missing column: email" = some e → e ≠ "" →
        s1.error =
          failurePrefix (Request.previewUpload ⟨"students.xlsx"⟩ "students_details_master"
            "master_id") ++ e) ∧
      ((some "Missing column: email" : Option String) = none ∨
          some "Missing column: email" = some "" →
        s1.error =
          failurePrefix (Request.previewUpload ⟨"students.xlsx"⟩ "students_details_master"
            "master_id") ++ ("HTTP error! status: " ++ toString 400))) ∧
    (deliver (Request.execute "students_details_master" "master_id" none)
        (apiAnswer (.notOk 500 (.value (.fields none)))) fileChosen).map errorBanner =
      some (some "Execution failed: HTTP error! status: 500") :=
  ⟨C18_error_message
      (Request.previewUpload ⟨"students.xlsx"⟩ "students_details_master" "master_id")
      fileChosen 400 (some "Missing column: email"),
    by decide⟩

/-! ## What the template request and the upload request carry -/

/-- C19: with `updateColumns` non-empty, a template request sent by
`handleDownloadTemplate` has the parameters `table_name = selectedTable`,
`identifier_column = identifierColumn` and `update_columns = JSON.stringify(updateColumns)`
(the columns in the order of `updateColumns`), and its answer is saved as
"bulk_update_" + `selectedTable` + "_template.xlsx"; the request is sent whenever
`identifierColumn` is non-empty as well. -/
theorem C19_template_request (s : WizardState) (hu : s.updateColumns ≠ []) :
    (∀ q ∈ (handleDownloadTemplateStart s).2,
      q.query =
        [ ("table_name", s.selectedTable),
          ("identifier_column", s.identifierColumn),
          ("update_columns",
            "[" ++ ",".intercalate (s.updateColumns.map jsonQuote) ++ "]") ] ∧
      q.savedAs .blob = some ("bulk_update_" ++ s.selectedTable ++ "_template.xlsx")) ∧
    (s.identifierColumn ≠ "" →
      (handleDownloadTemplateStart s).2 =
        [Request.downloadTemplate s.selectedTable s.identifierColumn s.updateColumns]) := by
  have hlen : (s.updateColumns.length == 0) = false := by
    simpa using hu
  constructor
  · intro q hq
    by_cases hi : s.identifierColumn = ""
    · simp [handleDownloadTemplateStart, hi] at hq
    · simp only [handleDownloadTemplateStart, hi, hlen, decide_False, Bool.or_self,
        Bool.false_eq_true, if_false, List.mem_singleton] at hq
      subst hq
      exact ⟨rfl, rfl⟩
  · intro hi
    simp only [handleDownloadTemplateStart, hi, hlen, decide_False, Bool.or_self,
      Bool.false_eq_true, if_false]

/-- Witness for `C19_template_request`: scenario A. -/
theorem C19_template_request_witness :
    emailTicked.updateColumns ≠ [] ∧ emailTicked.identifierColumn ≠ "" ∧
    (handleDownloadTemplateStart emailTicked).2.map Request.query =
      [[ ("table_name", "students_details_master"),
         ("identifier_column", "master_id"),
         ("update_columns", "[\"email\"]") ]] ∧
    (handleDownloadTemplateStart emailTicked).2.map (fun q => q.savedAs .blob) =
      [some "bulk_update_students_details_master_template.xlsx"] ∧
    (handleDownloadTemplateStart emailTicked).2 =
      [Request.downloadTemplate emailTicked.selectedTable emailTicked.identifierColumn
        emailTicked.updateColumns] :=
  ⟨by decide, by decide, by decide, by decide,
    (C19_template_request emailTicked (by decide)).2 (by decide)⟩

/-- C20: `handleFileUpload` sends a request only when a file is present; the request is
then the preview-upload whose form data has exactly the fields `file`, `table_name`
(= `selectedTable`) and `identifier_column` (= `identifierColumn`), and when it is
answered with a PreviewReport that report becomes `preview` and `step` becomes 3.
Without a file it sends nothing, sets `error` to "Please select a file to upload." and
changes no other field (so `step` and `preview` stay). -/
theorem C20_file_upload (s : WizardState) :
    ((handleFileUploadStart s).2 ≠ [] → s.file ≠ none) ∧
    (∀ f, s.file = some f →
      (handleFileUploadStart s).2 =
        [Request.previewUpload f s.selectedTable s.identifierColumn] ∧
      (Request.previewUpload f s.selectedTable s.identifierColumn).formData =
        [ ("file", .file f),
          ("table_name", .text s.selectedTable),
          ("identifier_column", .text s.identifierColumn) ]) ∧
    (∀ (p : PreviewReport) (t : WizardState), ∃ t1,
      handleFileUploadResume (apiAnswer (.ok (.value (.report (.previewReport p))))) t =
        some t1 ∧
      t1.preview = some (.previewReport p) ∧ t1.step = 3) ∧
    (s.file = none →
      handleFileUploadStart s = ({ s with error := "Please select a file to upload." }, []) ∧
      (handleFileUploadStart s).1.step = s.step ∧
      (handleFileUploadStart s).1.preview = s.preview) := by
  refine ⟨?_, ?_, fun p t => ⟨_, rfl, rfl, rfl⟩, ?_⟩
  · intro h hf
    simp [handleFileUploadStart, hf] at h
  · intro f hf
    simp only [handleFileUploadStart, hf]
    exact ⟨trivial, rfl⟩
  · intro hf
    simp only [handleFileUploadStart, hf]
    exact ⟨trivial, trivial, trivial⟩

/-- Witness for `C20_file_upload`: step 2 with `students.xlsx` chosen, and the same
state without a file. -/
theorem C20_file_upload_witness :
    fileChosen.file = some ⟨"students.xlsx"⟩ ∧
    (handleFileUploadStart fileChosen).2 =
      [Request.previewUpload ⟨"students.xlsx"⟩ "students_details_master" "master_id"] ∧
    ({ fileChosen with file := none } : WizardState).file = none ∧
    handleFileUploadStart { fileChosen with file := none } =
      ({ fileChosen with file := none, error := "Please select a file to upload." }, []) :=
  ⟨rfl, ((C20_file_upload fileChosen).2.1 ⟨"students.xlsx"⟩ rfl).1,
    rfl, ((C20_file_upload { fileChosen with file := none }).2.2.2 rfl).1⟩

/-! ## Frame of the template download, and what every failure leaves behind -/

/-- C21: `handleDownloadTemplate` changes nothing but `error` and `loading`: this holds
for its synchronous part (guard rejecting or not) and for its continuation on every
answer; a failed request sets `error` to a non-empty text; and with `identifierColumn`
empty or `updateColumns` empty no request is sent. -/
theorem C21_download_template_frame (s : WizardState) :
    ({ (handleDownloadTemplateStart s).1 with error := s.error, loading := s.loading } = s) ∧
    (∀ (r : Response) (t t1 : WizardState), handleDownloadTemplateResume r t = some t1 →
      { t1 with error := t.error, loading := t.loading } = t) ∧
    (∀ t : WizardState, ∃ t1, handleDownloadTemplateResume .blob t = some t1) ∧
    (∀ (m : String) (t : WizardState), ∃ t1,
      handleDownloadTemplateResume (.failure m) t = some t1 ∧ t1.error ≠ "") ∧
    (s.identifierColumn = "" ∨ s.updateColumns = [] → (handleDownloadTemplateStart s).2 = []) := by
  refine ⟨?_, ?_, fun t => ⟨_, rfl⟩, ?_, ?_⟩
  · unfold handleDownloadTemplateStart
    split <;> rfl
  · intro r t t1 h
    cases r with
    | schema cols => cases h
    | report r => cases h
    | blob =>
      injection h with h
      subst h
      rfl
    | failure m =>
      injection h with h
      subst h
      rfl
  · intro m t
    exact ⟨_, rfl, append_ne_empty _ m (by decide)⟩
  · intro h
    rcases h with h | h <;> simp [handleDownloadTemplateStart, h]

/-- Witness for `C21_download_template_frame`: the initial state, whose guard rejects,
and a failed download from scenario A. -/
theorem C21_download_template_frame_witness :
    (initialState.identifierColumn = "" ∨ initialState.updateColumns = []) ∧
    (handleDownloadTemplateStart initialState).2 = [] ∧
    (handleDownloadTemplateResume (.failure "Failed to fetch")
        (handleDownloadTemplateStart emailTicked).1).map
      (fun t => ({ t with error := "", loading := false } : WizardState)) = some emailTicked :=
  ⟨Or.inl rfl, (C21_download_template_frame initialState).2.2.2.2 (Or.inl rfl), by decide⟩

/-- C22: whichever of the four handlers sent the request and whichever way its network
call fails (`fetch` rejects, the status is not a success, or the body cannot be read),
the handler's continuation ends normally, in its `catch`, with `error` set to the
handler's text followed by the message of the error, which is not empty. -/
theorem C22_failures_are_caught (q : Request) (s : WizardState) (o : FetchOutcome)
    (hf : o.failed = true) :
    ∃ s1 m, apiAnswer o = .failure m ∧
      deliver q (apiAnswer o) s = some s1 ∧
      s1.error = failurePrefix q ++ m ∧
      s1.error ≠ "" := by
  have key : ∀ m, apiAnswer o = .failure m →
      ∃ s1 m, apiAnswer o = .failure m ∧ deliver q (apiAnswer o) s = some s1 ∧
        s1.error = failurePrefix q ++ m ∧ s1.error ≠ "" := by
    intro m hm
    refine ⟨_, m, hm, by rw [hm]; exact deliver_failure q m s, rfl, ?_⟩
    exact append_ne_empty _ m (failurePrefix_ne_empty q)
  match o, hf with
  | .rejected m, _ => exact key m rfl
  | .notOk status (.value (.fields e)), _ => exact key _ rfl
  | .notOk _ (.value (.jsonNull m)), _ => exact key m rfl
  | .notOk _ (.throws m), _ => exact key m rfl
  | .ok (.throws m), _ => exact key m rfl

/-- Witness for `C22_failures_are_caught`: the execute request is answered with status
502 and a body that is not JSON. -/
theorem C22_failures_are_caught_witness :
    (FetchOutcome.notOk 502 (.throws "Unexpected token < in JSON at position 0")).failed = true ∧
    ∃ s1 m,
      apiAnswer (.notOk 502 (.throws "Unexpected token < in JSON at position 0")) = .failure m ∧
      deliver (Request.execute "students_details_master" "master_id" none)
        (apiAnswer (.notOk 502 (.throws "Unexpected token < in JSON at position 0")))
        reviewAcknowledged = some s1 ∧
      s1.error = failurePrefix (Request.execute "students_details_master" "master_id" none) ++ m ∧
      s1.error ≠ "" :=
  ⟨rfl, C22_failures_are_caught (Request.execute "students_details_master" "master_id" none)
    reviewAcknowledged (.notOk 502 (.throws "Unexpected token < in JSON at position 0")) rfl⟩

/-- C23: every handler that has sent its request ends with `loading` false, whether the
request succeeded or failed: the continuation runs to its end on every failure and on
the success answer of its endpoint, and whenever it has run `loading` is false, so that
"Download Template" and "Preview Changes" are disabled only by their other condition. -/
theorem C23_loading_cleared (s : WizardState) :
    (∀ (q : Request) (r : Response) (s1 : WizardState), deliver q r s = some s1 →
      s1.loading = false ∧
      downloadTemplateDisabled s1 = (s1.updateColumns.length == 0) ∧
      previewChangesDisabled s1 = s1.file.isNone) ∧
    (∀ (q : Request) (o : FetchOutcome), o.failed = true →
      ∃ s1, deliver q (apiAnswer o) s = some s1) ∧
    (∀ T cols, ∃ s1, deliver (.tableSchema T) (apiAnswer (.ok (.value (.schema cols)))) s = some s1) ∧
    (∀ T c u, ∃ s1, deliver (.downloadTemplate T c u) (apiAnswer (.ok (.value .blob))) s = some s1) ∧
    (∀ f T c r, ∃ s1,
      deliver (.previewUpload f T c) (apiAnswer (.ok (.value (.report r)))) s = some s1) ∧
    (∀ T c u r, ∃ s1,
      deliver (.execute T c u) (apiAnswer (.ok (.value (.report r)))) s = some s1) := by
  refine ⟨?_, ?_, fun _ _ => ⟨_, rfl⟩, fun _ _ _ => ⟨_, rfl⟩, fun _ _ _ _ => ⟨_, rfl⟩,
    fun _ _ _ _ => ⟨_, rfl⟩⟩
  · intro q r s1 h
    have hl : s1.loading = false := by
      cases q <;> cases r <;>
        simp [deliver, fetchSchemaResume, handleDownloadTemplateResume, handleFileUploadResume,
          handleExecuteUpdateResume] at h <;> subst h <;> rfl
    simp [downloadTemplateDisabled, previewChangesDisabled, hl]
  · intro q o hf
    match o, hf with
    | .rejected m, _ => exact ⟨_, deliver_failure q m s⟩
    | .notOk status (.value (.fields e)), _ => exact ⟨_, deliver_failure q _ s⟩
    | .notOk _ (.value (.jsonNull m)), _ => exact ⟨_, deliver_failure q m s⟩
    | .notOk _ (.throws m), _ => exact ⟨_, deliver_failure q m s⟩
    | .ok (.throws m), _ => exact ⟨_, deliver_failure q m s⟩

/-- Witness for `C23_loading_cleared`: a rejected upload started from step 2. -/
theorem C23_loading_cleared_witness :
    (handleFileUploadStart fileChosen).1.loading = true ∧
    (FetchOutcome.rejected "Failed to fetch").failed = true ∧
    (deliver (Request.previewUpload ⟨"students.xlsx"⟩ "students_details_master" "master_id")
        (apiAnswer (.rejected "Failed to fetch")) (handleFileUploadStart fileChosen).1).map
      (fun s1 => (s1.loading, previewChangesDisabled s1)) = some (false, false) ∧
    ∃ s1, deliver (Request.previewUpload ⟨"students.xlsx"⟩ "students_details_master" "master_id")
      (apiAnswer (.rejected "Failed to fetch")) (handleFileUploadStart fileChosen).1 = some s1 :=
  ⟨rfl, rfl, by decide,
    (C23_loading_cleared (handleFileUploadStart fileChosen).1).2.1 _ _ rfl⟩

/-! ## The list of update columns -/

/-- A toggle of an absent column appends it. -/
theorem toggle_of_not_mem (c : ColumnName) (prev : List ColumnName) (h : c ∉ prev) :
    toggle c prev = prev ++ [c] := by
  simp [toggle, h]

/-- A toggle of a present column removes its occurrences. -/
theorem toggle_of_mem (c : ColumnName) (prev : List ColumnName) (h : c ∈ prev) :
    toggle c prev = prev.filter (fun x => x != c) := by
  simp [toggle, h]

/-- Membership after one toggle. -/
theorem mem_toggle (c d : ColumnName) (prev : List ColumnName) :
    d ∈ toggle c prev ↔ (d ∈ prev ∧ d ≠ c) ∨ (d = c ∧ c ∉ prev) := by
  by_cases h : c ∈ prev
  · rw [toggle_of_mem c prev h]
    simp [h]
  · rw [toggle_of_not_mem c prev h]
    simp only [List.mem_append, List.mem_singleton]
    constructor
    · rintro (hd | hd)
      · exact Or.inl ⟨hd, fun e => h (e ▸ hd)⟩
      · exact Or.inr ⟨hd, h⟩
    · rintro (⟨hd, _⟩ | ⟨hd, _⟩)
      · exact Or.inl hd
      · exact Or.inr hd

/-- A toggle keeps a duplicate-free list duplicate-free. -/
theorem toggle_nodup (c : ColumnName) (prev : List ColumnName) (h : prev.Nodup) :
    (toggle c prev).Nodup := by
  by_cases hc : c ∈ prev
  · rw [toggle_of_mem c prev hc]
    exact h.filter _
  · rw [toggle_of_not_mem c prev hc]
    exact List.Nodup.append h (List.nodup_singleton c) (by simpa using hc)

/-- What one event can do to `columns` and `updateColumns`: nothing, one toggle of a
column of the checklist, or clearing `updateColumns`. -/
theorem next_updateColumns (sys sys1 : Sys) (e : Event) (h : sys.next e = some sys1) :
    (sys1.st.columns = sys.st.columns ∧ sys1.st.updateColumns = sys.st.updateColumns) ∨
    (sys1.st.columns = sys.st.columns ∧
      ∃ c ∈ checklist sys.st, sys1.st.updateColumns = toggle c sys.st.updateColumns) ∨
    sys1.st.updateColumns = [] := by
  cases e with
  | changeTable t =>
    simp only [Sys.next] at h
    split at h
    · injection h with h; subst h
      left
      simp only [Sys.send, selectTable, fetchSchemaStart]
      split <;> exact ⟨rfl, rfl⟩
    · cases h
  | changeIdentifier c =>
    simp only [Sys.next] at h
    split at h
    · injection h with h; subst h; exact Or.inl ⟨rfl, rfl⟩
    · cases h
  | toggleColumn c =>
    simp only [Sys.next] at h
    split at h
    · next hc =>
      injection h with h; subst h
      exact Or.inr (Or.inl ⟨rfl, c, hc.2, rfl⟩)
    · cases h
  | clickDownloadTemplate =>
    simp only [Sys.next] at h
    split at h
    · injection h with h; subst h
      left
      simp only [Sys.send, handleDownloadTemplateStart]
      split <;> exact ⟨rfl, rfl⟩
    · cases h
  | clickNext =>
    simp only [Sys.next] at h
    split at h
    · injection h with h; subst h; exact Or.inl ⟨rfl, rfl⟩
    · cases h
  | chooseFile f =>
    simp only [Sys.next] at h
    split at h
    · injection h with h; subst h; exact Or.inl ⟨rfl, rfl⟩
    · cases h
  | clickBackToConfiguration =>
    simp only [Sys.next] at h
    split at h
    · injection h with h; subst h; exact Or.inl ⟨rfl, rfl⟩
    · cases h
  | clickPreviewChanges =>
    simp only [Sys.next] at h
    split at h
    · injection h with h; subst h
      left
      simp only [Sys.send, handleFileUploadStart]
      split <;> exact ⟨rfl, rfl⟩
    · cases h
  | setAcknowledge b =>
    simp only [Sys.next] at h
    split at h
    · split at h
      · split at h
        · injection h with h; subst h; exact Or.inl ⟨rfl, rfl⟩
        · cases h
      · cases h
    · cases h
  | clickBackToUpload =>
    simp only [Sys.next] at h
    split at h
    · split at h
      · injection h with h; subst h; exact Or.inl ⟨rfl, rfl⟩
      · cases h
    · cases h
  | clickExecute =>
    simp only [Sys.next] at h
    split at h
    · split at h
      · split at h
        · cases h
        · injection h with h; subst h
          left
          simp only [Sys.send, handleExecuteUpdateStart]
          split <;> exact ⟨rfl, rfl⟩
      · cases h
    · cases h
  | clickStartNew =>
    simp only [Sys.next] at h
    split at h
    · injection h with h; subst h
      left
      simp only [Sys.send, resetProcess, fetchSchemaStart]
      split <;> exact ⟨rfl, rfl⟩
    · cases h
  | answer i r =>
    simp only [Sys.next] at h
    split at h
    · next q hq =>
      split at h
      · next s hd =>
        injection h with h; subst h
        cases q <;> cases r <;>
          simp [deliver, fetchSchemaResume, handleDownloadTemplateResume,
            handleFileUploadResume, handleExecuteUpdateResume] at hd <;> subst hd <;> simp
      · cases h
    · cases h

/-- Induction over the reachable states. -/
theorem reachable_induction (P : Sys → Prop) (h0 : P mounted)
    (hs : ∀ sys e sys1, P sys → sys.next e = some sys1 → P sys1)
    (sys : Sys) (h : Reachable sys) : P sys := by
  obtain ⟨es, hes⟩ := h
  have aux : ∀ (es : List Event) (a b : Sys), P a → a.run es = some b → P b := by
    intro es
    induction es with
    | nil =>
      intro a b ha hr
      simp only [Sys.run] at hr
      injection hr with hr
      exact hr ▸ ha
    | cons e es ih =>
      intro a b ha hr
      simp only [Sys.run] at hr
      split at hr
      · next a1 h1 => exact ih a1 b (hs a e a1 ha h1) hr
      · cases hr
  exact aux es mounted sys h0 hes

/-- As long as toggles come from the checkboxes of the array rendered last, every
element of `updateColumns` is an element of `columns`. -/
theorem reachable_updateColumns_subset (sys : Sys) (hr : Reachable sys) :
    ∀ c ∈ sys.st.updateColumns, c ∈ sys.st.columns := by
  refine reachable_induction (fun sys => ∀ c ∈ sys.st.updateColumns, c ∈ sys.st.columns)
    ?_ ?_ sys hr
  · intro c hc
    have h0 : mounted.st.updateColumns = [] := by decide
    rw [h0] at hc
    cases hc
  · intro a e b ha hn c hc
    rcases next_updateColumns a b e hn with ⟨h1, h2⟩ | ⟨h1, x, hx, h2⟩ | h2
    · rw [h1]; rw [h2] at hc; exact ha c hc
    · rw [h1]
      rw [h2] at hc
      rcases (mem_toggle x c a.st.updateColumns).mp hc with ⟨hm, _⟩ | ⟨he, _⟩
      · exact ha c hm
      · rw [he]
        exact (List.mem_filter.mp hx).1
    · rw [h2] at hc
      cases hc

/-- C27: `updateColumns` is duplicate-free in every reachable state; it is empty
initially and after every successful `fetchSchema`; and `handleColumnToggle` maps a
duplicate-free list to a duplicate-free list. -/
theorem C27_updateColumns_nodup :
    (∀ sys, Reachable sys → sys.st.updateColumns.Nodup) ∧
    initialState.updateColumns = [] ∧
    (∀ (cols : List ColumnName) (s s1 : WizardState),
      fetchSchemaResume (.schema cols) s = some s1 → s1.updateColumns = []) ∧
    (∀ (c : ColumnName) (s : WizardState), s.updateColumns.Nodup →
      (handleColumnToggle c s).updateColumns.Nodup) := by
  refine ⟨?_, rfl, ?_, fun c s h => toggle_nodup c _ h⟩
  · intro sys hr
    refine reachable_induction (fun sys => sys.st.updateColumns.Nodup) ?_ ?_ sys hr
    · exact List.nodup_nil
    · intro a e b ha hn
      rcases next_updateColumns a b e hn with ⟨_, h2⟩ | ⟨_, x, _, h2⟩ | h2
      · rw [h2]; exact ha
      · rw [h2]; exact toggle_nodup x _ ha
      · rw [h2]; exact List.nodup_nil
  · intro cols s s1 h
    simp only [fetchSchemaResume] at h
    injection h with h
    subst h
    rfl

/-- Witness for `C27_updateColumns_nodup`: a reachable state, and a toggle on the
duplicate-free list of scenario A. -/
theorem C27_updateColumns_nodup_witness :
    Reachable reportShown ∧ reportShown.st.updateColumns.Nodup ∧
    emailTicked.updateColumns.Nodup ∧
    (handleColumnToggle "name" emailTicked).updateColumns.Nodup :=
  ⟨⟨fullPass, by decide⟩, C27_updateColumns_nodup.1 reportShown ⟨fullPass, by decide⟩,
    by decide, C27_updateColumns_nodup.2.2.2 "name" emailTicked (by decide)⟩

/-- C28, as stated, fails: with `email` the only selected column, toggling `email` twice
gives back the original list although `email` was present at the start. -/
theorem C28_restored_though_present :
    toggle "email" (toggle "email" ["email"]) = ["email"] ∧ "email" ∈ ["email"] := by
  decide

/-- C28, amended: a toggle of `c` flips the membership of `c` and of no other column and
keeps the other columns in their order (`c` is appended at the end when absent, every
occurrence of `c` is removed when present); toggling `c` twice gives a list with the
same elements as the original; it gives the original list when `c` was absent, and
when `c` was present it gives the other columns followed by `c`, so that the original
list comes back if and only if `c` was absent or was its last element and occurred
only there. -/
theorem C28_toggle (prev : List ColumnName) (c : ColumnName) :
    (c ∈ toggle c prev ↔ c ∉ prev) ∧
    (∀ d, d ≠ c → (d ∈ toggle c prev ↔ d ∈ prev)) ∧
    ((toggle c prev).filter (fun x => x != c) = prev.filter (fun x => x != c)) ∧
    (c ∉ prev → toggle c prev = prev ++ [c]) ∧
    (c ∈ prev → toggle c prev = prev.filter (fun x => x != c)) ∧
    (∀ d, d ∈ toggle c (toggle c prev) ↔ d ∈ prev) ∧
    (c ∉ prev → toggle c (toggle c prev) = prev) ∧
    (c ∈ prev → toggle c (toggle c prev) = prev.filter (fun x => x != c) ++ [c]) ∧
    (toggle c (toggle c prev) = prev ↔
      (c ∉ prev ∨ prev = prev.filter (fun x => x != c) ++ [c])) := by
  have hfilter : c ∉ prev.filter (fun x => x != c) := by simp
  have hself : c ∉ prev → prev.filter (fun x => x != c) = prev := by
    intro h
    apply List.filter_eq_self.mpr
    intro a ha
    simpa using fun e : a = c => h (e ▸ ha)
  have habs : c ∉ prev → toggle c prev = prev ++ [c] := toggle_of_not_mem c prev
  have hpres : c ∈ prev → toggle c prev = prev.filter (fun x => x != c) := toggle_of_mem c prev
  have h2abs : c ∉ prev → toggle c (toggle c prev) = prev := by
    intro h
    rw [habs h]
    simp [toggle, List.filter_append, hself h]
  have h2pres : c ∈ prev → toggle c (toggle c prev) = prev.filter (fun x => x != c) ++ [c] := by
    intro h
    rw [hpres h]
    simp [toggle]
  refine ⟨?_, ?_, ?_, habs, hpres, ?_, h2abs, h2pres, ?_⟩
  · rw [mem_toggle]
    simp
  · intro d hd
    rw [mem_toggle]
    simp [hd]
  · by_cases h : c ∈ prev
    · rw [hpres h]
      simp [List.filter_filter]
    · rw [habs h]
      simp [List.filter_append]
  · intro d
    by_cases h : c ∈ prev
    · rw [h2pres h]
      by_cases hd : d = c
      · subst hd
        simp [h]
      · simp [hd]
    · rw [h2abs h]
  · by_cases h : c ∈ prev
    · rw [h2pres h]
      simp only [h, not_true_eq_false, false_or]
      exact eq_comm
    · rw [h2abs h]
      simp [h]

/-! ## The stored preview -/

/-- What an operator action does to the table, the identifier column and the requests
in flight, seen from step 3 and from the other steps. -/
theorem next_operator (sys sys1 : Sys) (e : Event) (hfl : sys.inflight = [])
    (he : e.isAnswer = false) (h : sys.next e = some sys1) :
    (sys.st.step = 3 →
      sys1.st.selectedTable = sys.st.selectedTable ∧
      sys1.st.identifierColumn = sys.st.identifierColumn ∧
      e ≠ .clickStartNew ∧
      (sys1.inflight = [] ∨
        ∃ u, sys1.inflight = [.execute sys1.st.selectedTable sys1.st.identifierColumn u])) ∧
    (sys.st.step ≠ 3 →
      sys1.st.step ≠ 3 ∧
      (sys1.inflight = [] ∨ ∃ q, sys1.inflight = [q] ∧
        (∀ T c u, q ≠ .execute T c u) ∧
        ∀ f T c, q = .previewUpload f T c →
          T = sys1.st.selectedTable ∧ c = sys1.st.identifierColumn)) := by
  cases e with
  | answer i r => simp [Event.isAnswer] at he
  | changeTable t =>
    simp only [Sys.next] at h
    split at h
    · next hc =>
      injection h with h; subst h
      refine ⟨fun h3 => absurd hc.1 (by omega), fun _ => ?_⟩
      simp only [Sys.send, selectTable, fetchSchemaStart, hfl]
      split
      · exact ⟨by simp [hc.1], Or.inl rfl⟩
      · exact ⟨by simp [hc.1], Or.inr ⟨_, rfl, by simp, by simp⟩⟩
    · cases h
  | changeIdentifier c =>
    simp only [Sys.next] at h
    split at h
    · next hc =>
      injection h with h; subst h
      exact ⟨fun h3 => absurd hc.1 (by omega), fun h3 => ⟨h3, Or.inl hfl⟩⟩
    · cases h
  | toggleColumn c =>
    simp only [Sys.next] at h
    split at h
    · next hc =>
      injection h with h; subst h
      exact ⟨fun h3 => absurd hc.1 (by omega), fun h3 => ⟨h3, Or.inl hfl⟩⟩
    · cases h
  | clickDownloadTemplate =>
    simp only [Sys.next] at h
    split at h
    · next hc =>
      injection h with h; subst h
      refine ⟨fun h3 => absurd hc.1 (by omega), fun h3 => ?_⟩
      simp only [Sys.send, handleDownloadTemplateStart, hfl]
      split
      · exact ⟨h3, Or.inl rfl⟩
      · exact ⟨h3, Or.inr ⟨_, rfl, by simp, by simp⟩⟩
    · cases h
  | clickNext =>
    simp only [Sys.next] at h
    split at h
    · next hc =>
      injection h with h; subst h
      exact ⟨fun h3 => absurd hc.1 (by omega), fun _ => ⟨by simp, Or.inl hfl⟩⟩
    · cases h
  | chooseFile f =>
    simp only [Sys.next] at h
    split at h
    · next hc =>
      injection h with h; subst h
      exact ⟨fun h3 => absurd hc (by omega), fun h3 => ⟨h3, Or.inl hfl⟩⟩
    · cases h
  | clickBackToConfiguration =>
    simp only [Sys.next] at h
    split at h
    · next hc =>
      injection h with h; subst h
      exact ⟨fun h3 => absurd hc (by omega), fun _ => ⟨by simp, Or.inl hfl⟩⟩
    · cases h
  | clickPreviewChanges =>
    simp only [Sys.next] at h
    split at h
    · next hc =>
      injection h with h; subst h
      refine ⟨fun h3 => absurd hc.1 (by omega), fun h3 => ?_⟩
      simp only [Sys.send, handleFileUploadStart, hfl]
      split
      · exact ⟨h3, Or.inl rfl⟩
      · refine ⟨h3, Or.inr ⟨_, rfl, by simp, ?_⟩⟩
        intro f T c hq
        injection hq with _ hT hc2
        exact ⟨hT.symm, hc2.symm⟩
    · cases h
  | setAcknowledge b =>
    simp only [Sys.next] at h
    split at h
    · next hc =>
      split at h
      · split at h
        · injection h with h; subst h
          exact ⟨fun _ => ⟨rfl, rfl, by simp, Or.inl hfl⟩, fun h3 => absurd hc h3⟩
        · cases h
      · cases h
    · cases h
  | clickBackToUpload =>
    simp only [Sys.next] at h
    split at h
    · next hc =>
      split at h
      · injection h with h; subst h
        exact ⟨fun _ => ⟨rfl, rfl, by simp, Or.inl hfl⟩, fun h3 => absurd hc h3⟩
      · cases h
    · cases h
  | clickExecute =>
    simp only [Sys.next] at h
    split at h
    · next hc =>
      split at h
      · split at h
        · cases h
        · injection h with h; subst h
          refine ⟨fun _ => ?_, fun h3 => absurd hc h3⟩
          simp only [Sys.send, handleExecuteUpdateStart, hfl]
          split
          · exact ⟨rfl, rfl, by simp, Or.inl rfl⟩
          · exact ⟨rfl, rfl, by simp, Or.inr ⟨_, rfl⟩⟩
      · cases h
    · cases h
  | clickStartNew =>
    simp only [Sys.next] at h
    split at h
    · next hc =>
      injection h with h; subst h
      refine ⟨fun h3 => absurd hc (by omega), fun _ => ?_⟩
      simp only [Sys.send, resetProcess, fetchSchemaStart, hfl]
      split
      · exact ⟨by simp, Or.inl rfl⟩
      · exact ⟨by simp, Or.inr ⟨_, rfl, by simp, by simp⟩⟩
    · cases h

/-- What the continuation of each request does to the step, the table and the identifier
column. -/
theorem deliver_shape (q : Request) (r : Response) (s s2 : WizardState)
    (h : deliver q r s = some s2) :
    match q with
    | .tableSchema _ => s2.step = s.step
    | .downloadTemplate _ _ _ => s2.step = s.step
    | .previewUpload _ _ _ =>
        s2.selectedTable = s.selectedTable ∧ s2.identifierColumn = s.identifierColumn ∧
          ((∃ rep, r = .report rep ∧ s2.step = 3) ∨ (∃ m, r = .failure m ∧ s2.step = s.step))
    | .execute _ _ _ =>
        s2.selectedTable = s.selectedTable ∧ s2.identifierColumn = s.identifierColumn ∧
          ((∃ rep, r = .report rep ∧ s2.step = 4) ∨ (∃ m, r = .failure m ∧ s2.step = s.step)) := by
  cases q <;> cases r <;>
    simp [deliver, fetchSchemaResume, handleDownloadTemplateResume, handleFileUploadResume,
      handleExecuteUpdateResume] at h <;> subst h <;> simp

/-- An operator action other than the reset keeps the record. -/
theorem validatedAfter_of_ne (e : Event) (v : Option (String × String))
    (h : e ≠ .clickStartNew) : validatedAfter e v = v := by
  cases e <;> first | rfl | exact absurd rfl h

/-- The answer to the only request in flight. -/
theorem answer_single (sys sys2 : Sys) (q : Request) (r : Response)
    (hq : sys.inflight = [q]) (h : sys.next (.answer 0 r) = some sys2) :
    deliver q r sys.st = some sys2.st ∧ sys2.inflight = [] := by
  simp only [Sys.next, hq, List.get?] at h
  split at h
  · next s hd =>
    injection h with h
    subst h
    exact ⟨hd, rfl⟩
  · cases h

/-- The invariant of the runs in turns: nothing is in flight between two turns, and at
step 3 the record names the current table and identifier column. -/
theorem turn_invariant (a a1 : Audited) (e : Event) (reply : Option Response)
    (hi : a.sys.inflight = [] ∧ (a.sys.st.step = 3 →
      a.validated = some (a.sys.st.selectedTable, a.sys.st.identifierColumn)))
    (h : a.turn e reply = some a1) :
    a1.sys.inflight = [] ∧ (a1.sys.st.step = 3 →
      a1.validated = some (a1.sys.st.selectedTable, a1.sys.st.identifierColumn)) := by
  obtain ⟨hfl, hv⟩ := hi
  cases he : e.isAnswer with
  | true => simp [Audited.turn, he] at h
  | false =>
    cases hn : a.sys.next e with
    | none => simp [Audited.turn, he, hfl, hn] at h
    | some sys1 =>
      have hop := next_operator a.sys sys1 e hfl he hn
      simp only [Audited.turn, he, hfl, hn, Bool.false_eq_true, if_false] at h
      split at h
      · next _ _ hl =>
        injection h with h
        subst h
        refine ⟨hl, fun h3 => ?_⟩
        by_cases ha : a.sys.st.step = 3
        · obtain ⟨hT, hc, hne, _⟩ := hop.1 ha
          simp only [validatedAfter_of_ne e _ hne, hv ha, hT, hc]
        · exact absurd h3 (hop.2 ha).1
      · next _ _ q r hl =>
        split at h
        · next sys2 h2 =>
          injection h with h
          subst h
          obtain ⟨hd, hfl2⟩ := answer_single sys1 sys2 q r hl h2
          have hsh := deliver_shape q r sys1.st sys2.st hd
          refine ⟨hfl2, fun h3 => ?_⟩
          by_cases ha : a.sys.st.step = 3
          · obtain ⟨hT, hc, hne, hq⟩ := hop.1 ha
            rcases hq with hq | ⟨u, hq⟩
            · rw [hl] at hq
              cases hq
            · rw [hl] at hq
              injection hq with hq
              subst hq
              obtain ⟨hT2, hc2, hr | hr⟩ := hsh
              · obtain ⟨rep, _, h4⟩ := hr
                simp only at h3
                omega
              · obtain ⟨m, hm, _⟩ := hr
                subst hm
                simp only [validatedBy, validatedAfter_of_ne e _ hne, hv ha, hT2, hc2, hT, hc]
          · obtain ⟨hs1, hq⟩ := hop.2 ha
            rcases hq with hq | ⟨q1, hq, hnx, hup⟩
            · rw [hl] at hq
              cases hq
            · rw [hl] at hq
              injection hq with hq
              subst hq
              cases q with
              | tableSchema T =>
                simp only at hsh h3
                omega
              | downloadTemplate T c u =>
                simp only at hsh h3
                omega
              | previewUpload f T c =>
                obtain ⟨hT2, hc2, hr | hr⟩ := hsh
                · obtain ⟨rep, hrep2, _⟩ := hr
                  subst hrep2
                  obtain ⟨hT, hc⟩ := hup f T c rfl
                  simp only [validatedBy, hT2, hc2, hT, hc]
                · obtain ⟨m, _, hst⟩ := hr
                  simp only at h3
                  omega
              | execute T c u => exact absurd rfl (hnx T c u)
        · cases h
      · cases h

/-- The invariant holds after every run in turns. -/
theorem reachableInTurns_invariant (a : Audited) (h : ReachableInTurns a) :
    a.sys.inflight = [] ∧ (a.sys.st.step = 3 →
      a.validated = some (a.sys.st.selectedTable, a.sys.st.identifierColumn)) := by
  obtain ⟨r0, turns, hrun⟩ := h
  cases h0 : Audited.start r0 with
  | none => simp [h0] at hrun
  | some a0 =>
    simp only [h0, Option.bind] at hrun
    have hstart : a0.sys.inflight = [] ∧ (a0.sys.st.step = 3 →
        a0.validated = some (a0.sys.st.selectedTable, a0.sys.st.identifierColumn)) := by
      simp only [Audited.start] at h0
      split at h0
      · next sys hs =>
        injection h0 with h0
        subst h0
        obtain ⟨hd, hfl⟩ := answer_single mounted sys (.tableSchema "students_details_master") r0
          (by decide) hs
        refine ⟨hfl, fun h3 => ?_⟩
        have hsh := deliver_shape _ r0 mounted.st sys.st hd
        simp only at hsh h3
        have hm : mounted.st.step = 1 := by decide
        omega
      · cases h0
    clear h0
    induction turns generalizing a0 with
    | nil =>
      simp only [Audited.run] at hrun
      injection hrun with hrun
      exact hrun ▸ hstart
    | cons t rest ih =>
      obtain ⟨e, reply⟩ := t
      simp only [Audited.run] at hrun
      split at hrun
      · next a1 h1 => exact ih a1 hrun (turn_invariant a0 a1 e reply hstart h1)
      · cases hrun

/-- Runs compose. -/
theorem run_append (es1 es2 : List Event) (a b c : Sys)
    (h1 : a.run es1 = some b) (h2 : b.run es2 = some c) : a.run (es1 ++ es2) = some c := by
  induction es1 generalizing a with
  | nil =>
    simp only [Sys.run] at h1
    injection h1 with h1
    subst h1
    exact h2
  | cons e es ih =>
    simp only [Sys.run] at h1
    split at h1
    · next a1 hn =>
      simp only [List.cons_append, Sys.run, hn]
      exact ih a1 h1
    · cases h1

/-- A turn is one or two events of the wizard. -/
theorem turn_run (a a1 : Audited) (e : Event) (reply : Option Response)
    (h : a.turn e reply = some a1) : ∃ es, a.sys.run es = some a1.sys := by
  simp only [Audited.turn] at h
  split at h
  · cases h
  · split at h
    · next sys1 _ hn =>
      split at h
      · injection h with h
        subst h
        exact ⟨[e], by simp only [Sys.run, hn]⟩
      · next q r _ =>
        split at h
        · next sys2 h2 =>
          injection h with h
          subst h
          exact ⟨[e, .answer 0 r], by simp only [Sys.run, hn, h2]⟩
        · cases h
      · cases h
    · cases h

/-- Every state reached in turns is a reachable state of the wizard. -/
theorem reachableInTurns_reachable (a : Audited) (h : ReachableInTurns a) :
    Reachable a.sys := by
  obtain ⟨r0, turns, hrun⟩ := h
  cases h0 : Audited.start r0 with
  | none => simp [h0] at hrun
  | some a0 =>
    simp only [h0, Option.bind] at hrun
    have hstart : Reachable a0.sys := by
      simp only [Audited.start] at h0
      split at h0
      · next sys hs =>
        injection h0 with h0
        subst h0
        exact ⟨[.answer 0 r0], by simp only [Sys.run, hs]⟩
      · cases h0
    clear h0
    induction turns generalizing a0 with
    | nil =>
      simp only [Audited.run] at hrun
      injection hrun with hrun
      exact hrun ▸ hstart
    | cons t rest ih =>
      obtain ⟨e, reply⟩ := t
      simp only [Audited.run] at hrun
      split at hrun
      · next a1 h1 =>
        refine ih a1 hrun ?_
        obtain ⟨es0, hes0⟩ := hstart
        obtain ⟨es1, hes1⟩ := turn_run a0 a1 e reply h1
        exact ⟨es0 ++ es1, run_append es0 es1 mounted a0.sys a1.sys hes0 hes1⟩
      · cases hrun

/-- C25: when handlers run to completion one at a time, in every reachable state at step
3 the current `selectedTable` and `identifierColumn` are the ones submitted with the
preview-upload request whose answer is the stored preview, and the execute request
names that table and that identifier column. -/
theorem C25_preview_matches_selection (a : Audited) (hr : ReachableInTurns a)
    (h3 : a.sys.st.step = 3) :
    a.validated = some (a.sys.st.selectedTable, a.sys.st.identifierColumn) ∧
    ∀ sys1, a.sys.next .clickExecute = some sys1 →
      ∃ T c u, sys1.inflight = [Request.execute T c u] ∧ a.validated = some (T, c) := by
  obtain ⟨hfl, hv⟩ := reachableInTurns_invariant a hr
  refine ⟨hv h3, fun sys1 hn => ?_⟩
  simp only [Sys.next, h3, if_true] at hn
  split at hn
  · next v hrender =>
    split at hn
    · cases hn
    · next hdis =>
      injection hn with hn
      subst hn
      cases hp : a.sys.st.preview with
      | none =>
        simp only [renderStep3, hp] at hrender
        split at hrender
        · injection hrender with hrender
          subst hrender
          exact absurd rfl hdis
        · cases hrender
      | some p =>
        exact ⟨_, _, _, by simp only [Sys.send, handleExecuteUpdateStart, hp, hfl]; rfl, hv h3⟩
  · cases hn

/-- Witness for `C25_preview_matches_selection`: the review reached in turns. -/
theorem C25_preview_matches_selection_witness :
    ReachableInTurns reviewInTurns ∧ reviewInTurns.sys.st.step = 3 ∧
    (reviewInTurns.validated =
        some (reviewInTurns.sys.st.selectedTable, reviewInTurns.sys.st.identifierColumn) ∧
    ∀ sys1, reviewInTurns.sys.next .clickExecute = some sys1 →
      ∃ T c u, sys1.inflight = [Request.execute T c u] ∧ reviewInTurns.validated = some (T, c)) :=
  ⟨⟨.schema ["master_id", "name", "email"], turnsToReview, by decide⟩, rfl,
    C25_preview_matches_selection reviewInTurns
      ⟨.schema ["master_id", "name", "email"], turnsToReview, by decide⟩ rfl⟩

/-- What one event can do to `preview` and `step`: keep the preview (then the step stays,
or moves between steps other than into 3 and out of 4), reset both, store the answer
of a preview-upload and go to step 3, or store an answer and go to step 4. -/
theorem next_preview (sys sys1 : Sys) (e : Event) (h : sys.next e = some sys1) :
    (sys1.st.preview = sys.st.preview ∧
      (sys1.st.step = sys.st.step ∨ (sys.st.step ≠ 4 ∧ sys1.st.step ≠ 3))) ∨
    (sys1.st.preview = none ∧ sys1.st.step = 1) ∨
    (∃ i r f T c, e = .answer i (.report r) ∧
      sys.inflight.get? i = some (.previewUpload f T c) ∧
      sys1.st.preview = some r ∧ sys1.st.step = 3) ∨
    (∃ r, sys1.st.preview = some r ∧ sys1.st.step = 4) := by
  cases e with
  | changeTable t =>
    simp only [Sys.next] at h
    split at h
    · injection h with h; subst h
      left
      simp only [Sys.send, selectTable, fetchSchemaStart]
      split <;> exact ⟨rfl, Or.inl rfl⟩
    · cases h
  | changeIdentifier c =>
    simp only [Sys.next] at h
    split at h
    · injection h with h; subst h; exact Or.inl ⟨rfl, Or.inl rfl⟩
    · cases h
  | toggleColumn c =>
    simp only [Sys.next] at h
    split at h
    · injection h with h; subst h; exact Or.inl ⟨rfl, Or.inl rfl⟩
    · cases h
  | clickDownloadTemplate =>
    simp only [Sys.next] at h
    split at h
    · injection h with h; subst h
      left
      simp only [Sys.send, handleDownloadTemplateStart]
      split <;> exact ⟨rfl, Or.inl rfl⟩
    · cases h
  | clickNext =>
    simp only [Sys.next] at h
    split at h
    · next hc =>
      injection h with h; subst h
      exact Or.inl ⟨rfl, Or.inr ⟨by omega, by simp⟩⟩
    · cases h
  | chooseFile f =>
    simp only [Sys.next] at h
    split at h
    · injection h with h; subst h; exact Or.inl ⟨rfl, Or.inl rfl⟩
    · cases h
  | clickBackToConfiguration =>
    simp only [Sys.next] at h
    split at h
    · next hc =>
      injection h with h; subst h
      exact Or.inl ⟨rfl, Or.inr ⟨by omega, by simp⟩⟩
    · cases h
  | clickPreviewChanges =>
    simp only [Sys.next] at h
    split at h
    · injection h with h; subst h
      left
      simp only [Sys.send, handleFileUploadStart]
      split <;> exact ⟨rfl, Or.inl rfl⟩
    · cases h
  | setAcknowledge b =>
    simp only [Sys.next] at h
    split at h
    · split at h
      · split at h
        · injection h with h; subst h; exact Or.inl ⟨rfl, Or.inl rfl⟩
        · cases h
      · cases h
    · cases h
  | clickBackToUpload =>
    simp only [Sys.next] at h
    split at h
    · next hc =>
      split at h
      · injection h with h; subst h
        exact Or.inl ⟨rfl, Or.inr ⟨by omega, by simp⟩⟩
      · cases h
    · cases h
  | clickExecute =>
    simp only [Sys.next] at h
    split at h
    · split at h
      · split at h
        · cases h
        · injection h with h; subst h
          left
          simp only [Sys.send, handleExecuteUpdateStart]
          split <;> exact ⟨rfl, Or.inl rfl⟩
      · cases h
    · cases h
  | clickStartNew =>
    simp only [Sys.next] at h
    split at h
    · injection h with h; subst h
      right; left
      simp only [Sys.send, resetProcess, fetchSchemaStart]
      split <;> exact ⟨rfl, rfl⟩
    · cases h
  | answer i r =>
    simp only [Sys.next] at h
    split at h
    · next q hq =>
      split at h
      · next s hd =>
        injection h with h; subst h
        cases q with
        | tableSchema T =>
          left
          cases r <;> simp [deliver, fetchSchemaResume] at hd <;> subst hd <;> simp
        | downloadTemplate T c u =>
          left
          cases r <;> simp [deliver, handleDownloadTemplateResume] at hd <;> subst hd <;> simp
        | previewUpload f T c =>
          cases r with
          | schema cols => simp [deliver, handleFileUploadResume] at hd
          | blob => simp [deliver, handleFileUploadResume] at hd
          | report rep =>
            simp [deliver, handleFileUploadResume] at hd
            subst hd
            exact Or.inr (Or.inr (Or.inl ⟨i, rep, f, T, c, rfl, hq, rfl, rfl⟩))
          | failure m =>
            simp [deliver, handleFileUploadResume] at hd
            subst hd
            exact Or.inl ⟨rfl, Or.inl rfl⟩
        | execute T c u =>
          cases r with
          | schema cols => simp [deliver, handleExecuteUpdateResume] at hd
          | blob => simp [deliver, handleExecuteUpdateResume] at hd
          | report rep =>
            simp [deliver, handleExecuteUpdateResume] at hd
            subst hd
            exact Or.inr (Or.inr (Or.inr ⟨rep, rfl, rfl⟩))
          | failure m =>
            simp [deliver, handleExecuteUpdateResume] at hd
            subst hd
            exact Or.inl ⟨rfl, Or.inl rfl⟩
      · cases h
    · cases h

/-- While the validator answers with PreviewReports, step 3 always shows a PreviewReport
and an ExecutionReport is stored only at step 4. -/
theorem honest_preview_shape (sys : Sys) (h : ReachableHonest sys) :
    (sys.st.step = 3 → ∃ p, sys.st.preview = some (.previewReport p)) ∧
    (∀ x, sys.st.preview = some (.executionReport x) → sys.st.step = 4) := by
  obtain ⟨es, hes⟩ := h
  have aux : ∀ (es : List Event) (a b : Sys),
      ((a.st.step = 3 → ∃ p, a.st.preview = some (.previewReport p)) ∧
        (∀ x, a.st.preview = some (.executionReport x) → a.st.step = 4)) →
      a.runHonest es = some b →
      ((b.st.step = 3 → ∃ p, b.st.preview = some (.previewReport p)) ∧
        (∀ x, b.st.preview = some (.executionReport x) → b.st.step = 4)) := by
    intro es
    induction es with
    | nil =>
      intro a b ha hr
      simp only [Sys.runHonest] at hr
      injection hr with hr
      exact hr ▸ ha
    | cons e es ih =>
      intro a b ha hr
      simp only [Sys.runHonest] at hr
      split at hr
      · next hh =>
        split at hr
        · next a1 h1 =>
          refine ih a1 b ?_ hr
          obtain ⟨hb, hc⟩ := ha
          rcases next_preview a a1 e h1 with ⟨hp, hs⟩ | ⟨hp, hs⟩ | ⟨i, r, f, T, c, he, hq, hp, hs⟩ |
            ⟨r, hp, hs⟩
          · rw [hp]
            rcases hs with hs | ⟨hs4, hs3⟩
            · rw [hs]; exact ⟨hb, hc⟩
            · refine ⟨fun h3 => absurd h3 hs3, fun x hx => absurd (hc x hx) hs4⟩
          · refine ⟨fun h3 => by omega, fun x hx => ?_⟩
            rw [hp] at hx
            cases hx
          · subst he
            cases r with
            | previewReport p =>
              refine ⟨fun _ => ⟨p, hp⟩, fun x hx => ?_⟩
              rw [hp] at hx
              cases hx
            | executionReport x =>
              simp only [honest, hq] at hh
              cases hh
          · exact ⟨fun h3 => by omega, fun _ _ => hs⟩
        · cases hr
      · cases hr
  refine aux es mounted sys ⟨fun h3 => ?_, fun x hx => ?_⟩ hes
  · have : mounted.st.step = 1 := by decide
    omega
  · have : mounted.st.preview = none := by decide
    rw [this] at hx
    cases hx

/-- C24 fails on the code in its first part: with every preview-upload answered by a
PreviewReport, two executions are in flight, the first answer leads to step 4 and the
operator resets (`preview` is null); the answer of the second execution then stores an
ExecutionReport, although no preview-upload has succeeded since the reset. -/
theorem C24_preview_after_reset :
    (mounted.runHonest resetWhileExecuting).map (fun sys => (sys.st.preview, sys.inflight)) =
      some (none,
        [Request.execute "student_fee_transactions" "txn_id" (some cleanPreview.valid_updates),
          Request.tableSchema "student_fee_transactions"]) ∧
    (mounted.runHonest
        (resetWhileExecuting ++ [.answer 0 (.report (.executionReport doneReport))])).map
      (fun sys => (sys.st.preview, sys.st.step)) =
      some (some (.executionReport doneReport), 4) := by
  decide

/-! ## The checkboxes on screen, with and without repeated column names -/

/-- A list without repetition has no child that a later one replaces in the map. -/
theorem shadowed_of_nodup (xs : List ColumnName) (h : xs.Nodup) : shadowed xs = [] := by
  induction xs with
  | nil => rfl
  | cons x xs ih =>
    have hx := List.nodup_cons.mp h
    simp [shadowed, hx.1, ih hx.2]

/-- What the first pass leaves of the old list is a part of the old list. -/
theorem dropMatching_sublist (old new : List ColumnName) :
    (dropMatching old new).1.Sublist old := by
  induction old generalizing new with
  | nil => cases new <;> simp [dropMatching]
  | cons o os ih =>
    cases new with
    | nil => simp [dropMatching]
    | cons n ns =>
      simp only [dropMatching]
      split
      · exact (ih ns).trans (List.sublist_cons_self o os)
      · exact List.Sublist.refl _

/-- A keyed list without repeated keys leaves nothing behind, whatever replaces it. -/
theorem leftOver_of_nodup (old new : List ColumnName) (h : old.Nodup) :
    leftOver old new = [] := by
  have hn : (dropMatching old new).1.Nodup := h.sublist (dropMatching_sublist old new)
  unfold leftOver
  generalize dropMatching old new = p at hn
  obtain ⟨os, ns⟩ := p
  cases os with
  | nil => cases ns <;> rfl
  | cons o os =>
    cases ns with
    | nil => rfl
    | cons n ns => exact shadowed_of_nodup _ hn

/-- Only a schema answer changes `columns`, and it stores the columns it carries. -/
theorem next_columns (sys sys1 : Sys) (e : Event) (h : sys.next e = some sys1) :
    sys1.st.columns = sys.st.columns ∨
    ∃ i cols, e = .answer i (.schema cols) ∧ sys1.st.columns = cols := by
  cases e with
  | changeTable t =>
    simp only [Sys.next] at h
    split at h
    · injection h with h; subst h
      left
      simp only [Sys.send, selectTable, fetchSchemaStart]
      split <;> rfl
    · cases h
  | changeIdentifier c =>
    simp only [Sys.next] at h
    split at h
    · injection h with h; subst h; exact Or.inl rfl
    · cases h
  | toggleColumn c =>
    simp only [Sys.next] at h
    split at h
    · injection h with h; subst h; exact Or.inl rfl
    · cases h
  | clickDownloadTemplate =>
    simp only [Sys.next] at h
    split at h
    · injection h with h; subst h
      left
      simp only [Sys.send, handleDownloadTemplateStart]
      split <;> rfl
    · cases h
  | clickNext =>
    simp only [Sys.next] at h
    split at h
    · injection h with h; subst h; exact Or.inl rfl
    · cases h
  | chooseFile f =>
    simp only [Sys.next] at h
    split at h
    · injection h with h; subst h; exact Or.inl rfl
    · cases h
  | clickBackToConfiguration =>
    simp only [Sys.next] at h
    split at h
    · injection h with h; subst h; exact Or.inl rfl
    · cases h
  | clickPreviewChanges =>
    simp only [Sys.next] at h
    split at h
    · injection h with h; subst h
      left
      simp only [Sys.send, handleFileUploadStart]
      split <;> rfl
    · cases h
  | setAcknowledge b =>
    simp only [Sys.next] at h
    split at h
    · split at h
      · split at h
        · injection h with h; subst h; exact Or.inl rfl
        · cases h
      · cases h
    · cases h
  | clickBackToUpload =>
    simp only [Sys.next] at h
    split at h
    · split at h
      · injection h with h; subst h; exact Or.inl rfl
      · cases h
    · cases h
  | clickExecute =>
    simp only [Sys.next] at h
    split at h
    · split at h
      · split at h
        · cases h
        · injection h with h; subst h
          left
          simp only [Sys.send, handleExecuteUpdateStart]
          split <;> rfl
      · cases h
    · cases h
  | clickStartNew =>
    simp only [Sys.next] at h
    split at h
    · injection h with h; subst h
      left
      simp only [Sys.send, resetProcess, fetchSchemaStart]
      split <;> rfl
    · cases h
  | answer i r =>
    simp only [Sys.next] at h
    split at h
    · next q hq =>
      split at h
      · next s hd =>
        injection h with h; subst h
        cases q <;> cases r <;>
          simp [deliver, fetchSchemaResume, handleDownloadTemplateResume,
            handleFileUploadResume, handleExecuteUpdateResume] at hd <;> subst hd <;> simp
      · cases h
    · cases h

/-- With nothing left over on screen, the controls are those of the arrays rendered
last. -/
theorem admits_of_nothing_left (scr : Screen) (hb : scr.leftBoxes = [])
    (ho : scr.leftOptions = []) (e : Event) : scr.admits e = scr.sys.next e := by
  cases e <;> simp [Screen.admits, Sys.next, Screen.boxes, Screen.options, hb, ho]

/-- A render from a screen with nothing left over and no repeated column leaves nothing
behind. -/
theorem render_of_nodup (scr : Screen) (sys1 : Sys) (hc : scr.sys.st.columns.Nodup)
    (hb : scr.leftBoxes = []) (ho : scr.leftOptions = []) :
    (scr.render sys1).sys = sys1 ∧ (scr.render sys1).leftBoxes = [] ∧
      (scr.render sys1).leftOptions = [] := by
  unfold Screen.render
  split
  · refine ⟨rfl, ?_, ?_⟩
    · show scr.leftBoxes ++ leftOver (checklist scr.sys.st) (checklist sys1.st) = []
      have h1 : (checklist scr.sys.st).Nodup := List.Nodup.filter _ hc
      rw [hb, leftOver_of_nodup _ _ h1]
      rfl
    · show scr.leftOptions ++ leftOver scr.sys.st.columns sys1.st.columns = []
      rw [ho, leftOver_of_nodup _ _ hc]
      rfl
  · exact ⟨rfl, rfl, rfl⟩

/-- One event of a run without repeated column names: it is an event of `Sys.next`, and
the screen stays without repeated columns and without left-over elements. -/
theorem next_distinct (scr scr1 : Screen) (e : Event) (hd : distinctNames e = true)
    (h : scr.next e = some scr1) (hc : scr.sys.st.columns.Nodup)
    (hb : scr.leftBoxes = []) (ho : scr.leftOptions = []) :
    scr.sys.next e = some scr1.sys ∧ scr1.sys.st.columns.Nodup ∧
      scr1.leftBoxes = [] ∧ scr1.leftOptions = [] := by
  unfold Screen.next at h
  rw [admits_of_nothing_left scr hb ho e] at h
  cases hn : scr.sys.next e with
  | none => rw [hn] at h; cases h
  | some sys1 =>
    rw [hn] at h
    simp only [Option.map_some'] at h
    injection h with h
    obtain ⟨h1, h2, h3⟩ := render_of_nodup scr sys1 hc hb ho
    rw [h] at h1 h2 h3
    refine ⟨by rw [h1], ?_, h2, h3⟩
    rw [h1]
    rcases next_columns scr.sys sys1 e hn with hk | ⟨i, cols, he, hk⟩
    · rw [hk]; exact hc
    · rw [hk]
      subst he
      simpa [distinctNames] using hd

/-- Runs of the screen without repeated column names are runs of `Sys.next`, and nothing
is ever left over in them. -/
theorem reachableDistinct_spec (scr : Screen) (hr : ReachableDistinct scr) :
    Reachable scr.sys ∧ scr.sys.st.columns.Nodup ∧
      scr.leftBoxes = [] ∧ scr.leftOptions = [] := by
  obtain ⟨es, hes⟩ := hr
  have aux : ∀ (es : List Event) (a b : Screen),
      (Reachable a.sys ∧ a.sys.st.columns.Nodup ∧ a.leftBoxes = [] ∧ a.leftOptions = []) →
      a.runDistinct es = some b →
      (Reachable b.sys ∧ b.sys.st.columns.Nodup ∧ b.leftBoxes = [] ∧ b.leftOptions = []) := by
    intro es
    induction es with
    | nil =>
      intro a b ha hrun
      simp only [Screen.runDistinct] at hrun
      injection hrun with hrun
      exact hrun ▸ ha
    | cons e es ih =>
      intro a b ha hrun
      simp only [Screen.runDistinct] at hrun
      split at hrun
      · next hd =>
        split at hrun
        · next a1 h1 =>
          obtain ⟨⟨tr, htr⟩, hc, hb, ho⟩ := ha
          obtain ⟨hn, hc1, hb1, ho1⟩ := next_distinct a a1 e hd h1 hc hb ho
          refine ih a1 b ⟨⟨tr ++ [e], ?_⟩, hc1, hb1, ho1⟩ hrun
          refine run_append tr [e] mounted a.sys a1.sys htr ?_
          simp only [Sys.run, hn]
        · cases hrun
      · cases hrun
  exact aux es mountedScreen scr
    ⟨⟨[], rfl⟩, List.nodup_nil, rfl, rfl⟩ hes

/-- Every schema without repeated names, with any of its columns as the identifier, is on
screen in some run without repeated column names. -/
theorem distinct_schema_reachable (cols : List ColumnName) (x : ColumnName)
    (hc : cols.Nodup) (hx : x ∈ cols) :
    ∃ scr, ReachableDistinct scr ∧ scr.sys.st.step = 1 ∧ scr.sys.st.columns = cols ∧
      scr.sys.st.identifierColumn = x := by
  obtain ⟨sys1, e1, c1, k1⟩ : ∃ sys1, mounted.next (.answer 0 (.schema cols)) = some sys1 ∧
      sys1.st.columns = cols ∧ sys1.st.step = 1 := ⟨_, rfl, rfl, rfl⟩
  obtain ⟨s1, b1, o1⟩ := render_of_nodup mountedScreen sys1 List.nodup_nil rfl rfl
  have n1 : mountedScreen.next (.answer 0 (.schema cols)) =
      some (mountedScreen.render sys1) := by
    simp only [Screen.next, Screen.admits]
    rw [show mountedScreen.sys = mounted from rfl, e1]
    rfl
  have n2 : (mountedScreen.render sys1).next (.changeIdentifier x) =
      some ((mountedScreen.render sys1).render
        { sys1 with st := { sys1.st with identifierColumn := x } }) := by
    simp [Screen.next, Screen.admits, Screen.options, s1, k1, c1, hx]
  obtain ⟨s2, _, _⟩ :=
    render_of_nodup (mountedScreen.render sys1)
      { sys1 with st := { sys1.st with identifierColumn := x } }
      (by rw [s1, c1]; exact hc) b1 o1
  have hd : distinctNames (.answer 0 (.schema cols)) = true := by
    simpa [distinctNames] using hc
  refine ⟨(mountedScreen.render sys1).render
      { sys1 with st := { sys1.st with identifierColumn := x } },
    ⟨[.answer 0 (.schema cols), .changeIdentifier x], ?_⟩, ?_, ?_, ?_⟩
  · have hd2 : distinctNames (.changeIdentifier x) = true := rfl
    simp only [Screen.runDistinct, hd, hd2, n1, n2, if_true]
  · rw [s2]; exact k1
  · rw [s2]; exact c1
  · rw [s2]

/-- C12, as stated, fails: the schema names `id` and `a` twice, and after `a` has been
picked as the identifier a checkbox of `a` is still on screen in step 1, next to those
of `id`, `id` and `b`; it can be ticked, which puts the identifier into
`updateColumns`. -/
theorem C12_identifier_on_screen :
    mountedScreen.run repeatedNames = some identifierStillOffered ∧
    identifierStillOffered.sys.st.step = 1 ∧
    identifierStillOffered.sys.st.identifierColumn = "a" ∧
    identifierStillOffered.boxes = ["a", "id", "id", "b"] ∧
    identifierStillOffered.boxes ≠
      withoutIdentifier "a" identifierStillOffered.sys.st.columns ∧
    identifierStillOffered.sys.st.identifierColumn ∈ identifierStillOffered.boxes ∧
    (identifierStillOffered.next (.toggleColumn "a")).map
        (fun scr => scr.sys.st.updateColumns) = some ["a"] := by
  decide

/-- C12, amended: for every schema without repeated column names and every
`identifierColumn`, the checkboxes on screen in step 1 are exactly `columns` with every
occurrence of `identifierColumn` removed, in the original order: the list equals the
recursive removal, it is a sublist of `columns`, it holds exactly the columns other
than the identifier, the identifier is not in it, and a toggle is possible for these
columns only.  Every such schema, with any of its columns as the identifier, occurs.
The array of line 205 is this removal for every schema, repeated names included. -/
theorem C12_checklist :
    (∀ scr, ReachableDistinct scr →
      scr.boxes = withoutIdentifier scr.sys.st.identifierColumn scr.sys.st.columns ∧
      scr.boxes.Sublist scr.sys.st.columns ∧
      (∀ c, c ∈ scr.boxes ↔ c ∈ scr.sys.st.columns ∧ c ≠ scr.sys.st.identifierColumn) ∧
      scr.sys.st.identifierColumn ∉ scr.boxes ∧
      (∀ c, (scr.next (.toggleColumn c)).isSome = true ↔
        scr.sys.st.step = 1 ∧ c ∈ scr.sys.st.columns ∧ c ≠ scr.sys.st.identifierColumn)) ∧
    (∀ (cols : List ColumnName) (x : ColumnName), cols.Nodup → x ∈ cols →
      ∃ scr, ReachableDistinct scr ∧ scr.sys.st.step = 1 ∧ scr.sys.st.columns = cols ∧
        scr.sys.st.identifierColumn = x) ∧
    (∀ s : WizardState, checklist s = withoutIdentifier s.identifierColumn s.columns) := by
  refine ⟨?_, distinct_schema_reachable, fun s => filter_eq_withoutIdentifier _ _⟩
  intro scr hr
  obtain ⟨_, _, hb, _⟩ := reachableDistinct_spec scr hr
  have hboxes : scr.boxes = checklist scr.sys.st := by
    simp [Screen.boxes, hb]
  have hmem : ∀ c, c ∈ scr.boxes ↔
      c ∈ scr.sys.st.columns ∧ c ≠ scr.sys.st.identifierColumn := by
    intro c
    rw [hboxes]
    simp [checklist]
  refine ⟨?_, ?_, hmem, ?_, ?_⟩
  · rw [hboxes]
    exact filter_eq_withoutIdentifier _ _
  · rw [hboxes]
    exact List.filter_sublist _
  · intro h
    exact ((hmem _).mp h).2 rfl
  · intro c
    rw [← hmem c]
    by_cases h : scr.sys.st.step = 1 ∧ c ∈ scr.boxes
    · simp [Screen.next, Screen.admits, h]
    · simp [Screen.next, Screen.admits, h]

/-- Witness for `C12_checklist`: `name` has been picked as the identifier of the students
schema; the checkboxes are those of `master_id` and `email`. -/
theorem C12_checklist_witness :
    ReachableDistinct nameIdentifies ∧
    nameIdentifies.boxes = ["master_id", "email"] ∧
    nameIdentifies.boxes =
      withoutIdentifier nameIdentifies.sys.st.identifierColumn
        nameIdentifies.sys.st.columns ∧
    nameIdentifies.sys.st.identifierColumn ∉ nameIdentifies.boxes :=
  ⟨⟨identifierChosen, by decide⟩, by decide,
    (C12_checklist.1 nameIdentifies ⟨identifierChosen, by decide⟩).1,
    (C12_checklist.1 nameIdentifies ⟨identifierChosen, by decide⟩).2.2.2.1⟩

/-- C26, as stated, fails: the students schema names `a` twice, the fee schema `k`, `m`
replaces it, and one checkbox of `a` stays on screen; ticking it puts `a` into
`updateColumns` while `columns` is `k`, `m`. -/
theorem C26_foreign_column_ticked :
    mountedScreen.run tickLeftOver = some foreignColumnTicked ∧
    foreignColumnTicked.sys.st.updateColumns = ["a"] ∧
    foreignColumnTicked.sys.st.columns = ["k", "m"] ∧
    "a" ∉ foreignColumnTicked.sys.st.columns := by
  decide

/-- C26, amended: in every state reachable while no schema answer repeats a column name,
left-over controls counted, every element of `updateColumns` is an element of
`columns`. -/
theorem C26_updateColumns_in_columns (scr : Screen) (hr : ReachableDistinct scr) :
    ∀ c ∈ scr.sys.st.updateColumns, c ∈ scr.sys.st.columns :=
  reachable_updateColumns_subset scr.sys (reachableDistinct_spec scr hr).1

/-- Witness for `C26_updateColumns_in_columns`: `email` is ticked on the students
schema. -/
theorem C26_updateColumns_in_columns_witness :
    ReachableDistinct nameIdentifies ∧
    nameIdentifies.sys.st.updateColumns = ["email"] ∧
    ∀ c ∈ nameIdentifies.sys.st.updateColumns, c ∈ nameIdentifies.sys.st.columns :=
  ⟨⟨identifierChosen, by decide⟩, rfl,
    C26_updateColumns_in_columns nameIdentifies ⟨identifierChosen, by decide⟩⟩

end BulkUpdate

namespace Dashboard

/-! ## Rounding -/

/-- Rounding to the nearest integer moves a number by at most one half. -/
theorem roundHalfEven_error (y : ℚ) : |(roundHalfEven y : ℚ) - y| ≤ 1 / 2 := by
  have h1 := Int.floor_le y
  have h2 := Int.lt_floor_add_one y
  unfold roundHalfEven
  rw [abs_le]
  split_ifs with ha hb hc
  · constructor <;> linarith
  · push_cast
    constructor <;> linarith
  · constructor <;> linarith
  · push_cast
    constructor <;> linarith

/-- Below 512 in absolute value, rounding to binary64 moves a number by at most
`2 ^ (-45)`. -/
theorem fl_error (x : ℚ) (hx : |x| < 512) : |fl x - x| ≤ 1 / 2 ^ 45 := by
  unfold fl
  split_ifs with h0
  · subst h0
    norm_num
  · have hpos : 0 < |x| := abs_pos.mpr h0
    have hlog : Int.log 2 |x| < 9 := by
      apply (Int.lt_zpow_iff_log_lt (by norm_num) hpos).mp
      norm_num
      exact hx
    have he : max (Int.log 2 |x|) (-1022) - 52 ≤ -44 := by
      have : max (Int.log 2 |x|) (-1022) ≤ 8 := max_le (by omega) (by norm_num)
      omega
    generalize max (Int.log 2 |x|) (-1022) - 52 = k at he
    have hq : (0 : ℚ) < 2 ^ k := zpow_pos (by norm_num) k
    have hq2 : (2 : ℚ) ^ k ≤ 2 ^ (-44 : ℤ) := zpow_le_zpow_right₀ (by norm_num) he
    have hq3 : (2 : ℚ) ^ (-44 : ℤ) = 1 / 2 ^ 44 := by norm_num
    have herr := roundHalfEven_error (x / 2 ^ k)
    have hx2 : x = x / 2 ^ k * 2 ^ k := by field_simp
    have key : (roundHalfEven (x / 2 ^ k) : ℚ) * 2 ^ k - x =
        ((roundHalfEven (x / 2 ^ k) : ℚ) - x / 2 ^ k) * 2 ^ k := by
      rw [sub_mul, ← hx2]
    rw [key, abs_mul, abs_of_pos hq]
    calc |(roundHalfEven (x / 2 ^ k) : ℚ) - x / 2 ^ k| * 2 ^ k
        ≤ 1 / 2 * 2 ^ k := mul_le_mul_of_nonneg_right herr hq.le
      _ ≤ 1 / 2 * (1 / 2 ^ 44) := by
          rw [← hq3]
          exact mul_le_mul_of_nonneg_left hq2 (by norm_num)
      _ = 1 / 2 ^ 45 := by norm_num

/-- A blended channel lies between the two channels it is blended from, for every ratio
that is within `2 ^ (-45)` of the interval from 0 to 1. -/
theorem blendChannel_between (a b : ℕ) (ha : a ≤ 255) (hb : b ≤ 255) (t : ℚ)
    (ht0 : -(1 / 2 ^ 45) ≤ t) (ht1 : t ≤ 1 + 1 / 2 ^ 45) :
    ((min a b : ℕ) : ℤ) ≤ blendChannel a b t ∧ blendChannel a b t ≤ ((max a b : ℕ) : ℤ) := by
  have hA0 : (0 : ℚ) ≤ a := Nat.cast_nonneg a
  have hA1 : (a : ℚ) ≤ 255 := by exact_mod_cast ha
  have hB0 : (0 : ℚ) ≤ b := Nat.cast_nonneg b
  have hB1 : (b : ℚ) ≤ 255 := by exact_mod_cast hb
  have eu := fl_error (1 - t) (by rw [abs_lt]; constructor <;> linarith)
  rw [abs_le] at eu
  unfold blendChannel mathRound
  generalize fl (1 - t) = u at eu ⊢
  -- products with the two channels
  have hAu1 : (a : ℚ) * u ≤ a * (1 - t + 1 / 2 ^ 45) :=
    mul_le_mul_of_nonneg_left (by linarith) hA0
  have hAu2 : (a : ℚ) * (1 - t - 1 / 2 ^ 45) ≤ a * u :=
    mul_le_mul_of_nonneg_left (by linarith) hA0
  have hAt1 : (a : ℚ) * t ≤ a * (1 + 1 / 2 ^ 45) := mul_le_mul_of_nonneg_left ht1 hA0
  have hAt2 : (a : ℚ) * (-(1 / 2 ^ 45)) ≤ a * t := mul_le_mul_of_nonneg_left ht0 hA0
  have hBt1 : (b : ℚ) * t ≤ b * (1 + 1 / 2 ^ 45) := mul_le_mul_of_nonneg_left ht1 hB0
  have hBt2 : (b : ℚ) * (-(1 / 2 ^ 45)) ≤ b * t := mul_le_mul_of_nonneg_left ht0 hB0
  have ep := fl_error ((a : ℚ) * u) (by rw [abs_lt]; constructor <;> linarith)
  rw [abs_le] at ep
  have eq := fl_error ((b : ℚ) * t) (by rw [abs_lt]; constructor <;> linarith)
  rw [abs_le] at eq
  generalize fl ((a : ℚ) * u) = p at ep ⊢
  generalize fl ((b : ℚ) * t) = q at eq ⊢
  have es := fl_error (p + q) (by rw [abs_lt]; constructor <;> linarith)
  rw [abs_le] at es
  generalize fl (p + q) = s at es ⊢
  rcases Nat.le_total a b with hab | hab
  · have hAB : (0 : ℚ) ≤ b - a := by
      have : (a : ℚ) ≤ b := by exact_mod_cast hab
      linarith
    have hD1 : ((b : ℚ) - a) * (-(1 / 2 ^ 45)) ≤ (b - a) * t :=
      mul_le_mul_of_nonneg_left ht0 hAB
    have hD2 : ((b : ℚ) - a) * t ≤ (b - a) * (1 + 1 / 2 ^ 45) :=
      mul_le_mul_of_nonneg_left ht1 hAB
    rw [min_eq_left hab, max_eq_right hab]
    constructor
    · apply Int.le_floor.mpr
      push_cast
      linarith
    · have : ⌊s + 1 / 2⌋ < (b : ℤ) + 1 := by
        apply Int.floor_lt.mpr
        push_cast
        linarith
      omega
  · have hAB : (0 : ℚ) ≤ a - b := by
      have : (b : ℚ) ≤ a := by exact_mod_cast hab
      linarith
    have hD1 : ((a : ℚ) - b) * (-(1 / 2 ^ 45)) ≤ (a - b) * t :=
      mul_le_mul_of_nonneg_left ht0 hAB
    have hD2 : ((a : ℚ) - b) * t ≤ (a - b) * (1 + 1 / 2 ^ 45) :=
      mul_le_mul_of_nonneg_left ht1 hAB
    rw [min_eq_right hab, max_eq_left hab]
    constructor
    · apply Int.le_floor.mpr
      push_cast
      linarith
    · have : ⌊s + 1 / 2⌋ < (a : ℤ) + 1 := by
        apply Int.floor_lt.mpr
        push_cast
        linarith
      omega

/-- The ratio of the loop, for an index below the count, is within `2 ^ (-45)` of the
interval from 0 to 1. -/
theorem ratio_bounds (count i : ℕ) (h : i < count) :
    -(1 / 2 ^ 45) ≤ fl ((i : ℚ) / (count : ℚ)) ∧ fl ((i : ℚ) / (count : ℚ)) ≤ 1 + 1 / 2 ^ 45 := by
  have hc : (0 : ℚ) < count := by exact_mod_cast (by omega : 0 < count)
  have h0 : (0 : ℚ) ≤ (i : ℚ) / count := div_nonneg (Nat.cast_nonneg i) hc.le
  have h1 : (i : ℚ) / count < 1 := by
    rw [div_lt_one hc]
    exact_mod_cast h
  have e := fl_error ((i : ℚ) / count) (by rw [abs_lt]; constructor <;> linarith)
  rw [abs_le] at e
  constructor <;> linarith

/-! ## The colour string -/

/-- Digits and their characters correspond. -/
theorem hexValue_digitChar16 (d : ℕ) (h : d < 16) : hexValue (digitChar16 d) = some d := by
  interval_cases d <;> rfl

/-- A parsed pair of hexadecimal digits is at most 255. -/
theorem hexPair_le (color : String) (start x : ℕ) (h : hexPair color start = some x) :
    x ≤ 255 := by
  unfold hexPair at h
  split at h
  · next a b _ =>
    have ha : ∀ (c : Char) (v : ℕ), hexValue c = some v → v ≤ 15 := by
      intro c v hv
      unfold hexValue at hv
      split_ifs at hv <;> simp at hv <;> omega
    split at h
    · next v w hv hw =>
      have := ha a v hv
      have := ha b w hw
      simp at h
      omega
    · cases h
  · cases h

/-- With channels from 0 to 255 the string is `#` and the two digits of each channel. -/
theorem rgbString_eq (R G B : ℕ) (hR : R ≤ 255) (hG : G ≤ 255) (hB : B ≤ 255) :
    rgbString R G B =
      String.mk ['#', digitChar16 (R / 16), digitChar16 (R % 16), digitChar16 (G / 16),
        digitChar16 (G % 16), digitChar16 (B / 16), digitChar16 (B % 16)] := by
  have h1 : shiftLeft 1 24 = 16777216 := by decide
  have h2 : shiftLeft (R : ℤ) 16 = (R : ℤ) * 65536 := by
    simp only [shiftLeft, toInt32]
    norm_num
    omega
  have h3 : shiftLeft (G : ℤ) 8 = (G : ℤ) * 256 := by
    simp only [shiftLeft, toInt32]
    norm_num
    omega
  have hn : (16777216 : ℤ) + (R : ℤ) * 65536 + (G : ℤ) * 256 + (B : ℤ) =
      ((16777216 + R * 65536 + G * 256 + B : ℕ) : ℤ) := by push_cast; ring
  have hd : Nat.digits 16 (16777216 + R * 65536 + G * 256 + B) =
      [B % 16, B / 16, G % 16, G / 16, R % 16, R / 16, 1] := by
    rw [Nat.digits_def' (by norm_num) (by omega)]
    rw [Nat.digits_def' (by norm_num) (by omega)]
    rw [Nat.digits_def' (by norm_num) (by omega)]
    rw [Nat.digits_def' (by norm_num) (by omega)]
    rw [Nat.digits_def' (by norm_num) (by omega)]
    rw [Nat.digits_def' (by norm_num) (by omega)]
    rw [Nat.digits_def' (by norm_num) (by omega)]
    have hz : (16777216 + R * 65536 + G * 256 + B) / 16 / 16 / 16 / 16 / 16 / 16 / 16 = 0 := by
      omega
    rw [hz, Nat.digits_zero]
    have e0 : (16777216 + R * 65536 + G * 256 + B) % 16 = B % 16 := by omega
    have e1 : (16777216 + R * 65536 + G * 256 + B) / 16 % 16 = B / 16 := by omega
    have e2 : (16777216 + R * 65536 + G * 256 + B) / 16 / 16 % 16 = G % 16 := by omega
    have e3 : (16777216 + R * 65536 + G * 256 + B) / 16 / 16 / 16 % 16 = G / 16 := by omega
    have e4 : (16777216 + R * 65536 + G * 256 + B) / 16 / 16 / 16 / 16 % 16 = R % 16 := by
      omega
    have e5 : (16777216 + R * 65536 + G * 256 + B) / 16 / 16 / 16 / 16 / 16 % 16 = R / 16 := by
      omega
    have e6 : (16777216 + R * 65536 + G * 256 + B) / 16 / 16 / 16 / 16 / 16 / 16 % 16 = 1 := by
      omega
    rw [e0, e1, e2, e3, e4, e5, e6]
  have hne : ((16777216 + R * 65536 + G * 256 + B : ℕ) : ℤ) ≠ 0 := by
    exact_mod_cast (by omega : 16777216 + R * 65536 + G * 256 + B ≠ 0)
  have hnn : ¬ ((16777216 + R * 65536 + G * 256 + B : ℕ) : ℤ) < 0 := by
    exact_mod_cast (by omega : ¬ 16777216 + R * 65536 + G * 256 + B < 0)
  unfold rgbString
  rw [h1, h2, h3, hn]
  unfold toString16
  rw [if_neg hne, if_neg hnn, Int.natAbs_ofNat, hd]
  rfl

/-- The channels of the string are the channels it was built from. -/
theorem hexPair_rgbString (R G B : ℕ) (hR : R ≤ 255) (hG : G ≤ 255) (hB : B ≤ 255) :
    hexPair (rgbString R G B) 1 = some R ∧ hexPair (rgbString R G B) 3 = some G ∧
      hexPair (rgbString R G B) 5 = some B := by
  rw [rgbString_eq R G B hR hG hB]
  have e : ∀ x : ℕ, x ≤ 255 → 16 * (x / 16) + x % 16 = x := fun x _ => by omega
  refine ⟨?_, ?_, ?_⟩
  · simp only [hexPair, List.drop, List.take,
      hexValue_digitChar16 (R / 16) (by omega), hexValue_digitChar16 (R % 16) (by omega)]
    rw [e R hR]
  · simp only [hexPair, List.drop, List.take,
      hexValue_digitChar16 (G / 16) (by omega), hexValue_digitChar16 (G % 16) (by omega)]
    rw [e G hG]
  · simp only [hexPair, List.drop, List.take,
      hexValue_digitChar16 (B / 16) (by omega), hexValue_digitChar16 (B % 16) (by omega)]
    rw [e B hB]

/-- The string built from channels between 0 and 255 is a colour. -/
theorem isHexColour_rgbString (R G B : ℕ) (hR : R ≤ 255) (hG : G ≤ 255) (hB : B ≤ 255) :
    IsHexColour (rgbString R G B) := by
  rw [rgbString_eq R G B hR hG hB]
  refine ⟨_, rfl, rfl, ?_⟩
  intro d hd
  simp only [List.mem_cons, List.mem_singleton, List.not_mem_nil, or_false] at hd
  rcases hd with h | h | h | h | h | h <;> subst h
  · rw [hexValue_digitChar16 _ (by omega)]; rfl
  · rw [hexValue_digitChar16 _ (by omega)]; rfl
  · rw [hexValue_digitChar16 _ (by omega)]; rfl
  · rw [hexValue_digitChar16 _ (by omega)]; rfl
  · rw [hexValue_digitChar16 _ (by omega)]; rfl
  · rw [hexValue_digitChar16 _ (by omega)]; rfl

/-- Every entry of the palette is a `#` with six hexadecimal digits, and each of its
channels parses. -/
theorem palette_shape :
    ∀ c ∈ brightColors,
      c.data.head? = some '#' ∧ c.data.tail.length = 6 ∧
      (∀ d ∈ c.data.tail, (hexValue d).isSome = true) ∧
      (hexPair c 1).isSome = true ∧ (hexPair c 3).isSome = true ∧
      (hexPair c 5).isSome = true := by
  decide

/-- Every entry of the palette is a colour. -/
theorem isHexColour_palette (c : String) (h : c ∈ brightColors) : IsHexColour c := by
  obtain ⟨h1, h2, h3, _⟩ := palette_shape c h
  refine ⟨c.data.tail, ?_, h2, h3⟩
  cases hc : c.data with
  | nil => simp [hc] at h1
  | cons a as =>
    simp only [hc, List.head?_cons, Option.some.injEq] at h1
    subst h1
    rfl

/-- A blended channel as a natural number. -/
theorem blendChannel_nat (a b : ℕ) (ha : a ≤ 255) (hb : b ≤ 255) (t : ℚ)
    (ht0 : -(1 / 2 ^ 45) ≤ t) (ht1 : t ≤ 1 + 1 / 2 ^ 45) :
    ∃ z : ℕ, blendChannel a b t = (z : ℤ) ∧ min a b ≤ z ∧ z ≤ max a b ∧ z ≤ 255 := by
  obtain ⟨h1, h2⟩ := blendChannel_between a b ha hb t ht0 ht1
  refine ⟨(blendChannel a b t).toNat, ?_, ?_, ?_, ?_⟩
  · have : (0 : ℤ) ≤ blendChannel a b t := le_trans (Int.natCast_nonneg _) h1
    exact (Int.toNat_of_nonneg this).symm
  · omega
  · omega
  · have : max a b ≤ 255 := max_le ha hb
    omega

/-- Blending two entries of the palette at a ratio of the loop gives a colour whose
channels lie between those of the two entries. -/
theorem blendColors_palette (c1 c2 : String) (h1 : c1 ∈ brightColors) (h2 : c2 ∈ brightColors)
    (t : ℚ) (ht0 : -(1 / 2 ^ 45) ≤ t) (ht1 : t ≤ 1 + 1 / 2 ^ 45) :
    ∃ col, blendColors c1 c2 t = some col ∧ IsHexColour col ∧ ChannelsBetween c1 c2 col := by
  obtain ⟨_, _, _, p1, p3, p5⟩ := palette_shape c1 h1
  obtain ⟨_, _, _, q1, q3, q5⟩ := palette_shape c2 h2
  obtain ⟨r1, hr1⟩ := Option.isSome_iff_exists.mp p1
  obtain ⟨g1, hg1⟩ := Option.isSome_iff_exists.mp p3
  obtain ⟨b1, hb1⟩ := Option.isSome_iff_exists.mp p5
  obtain ⟨r2, hr2⟩ := Option.isSome_iff_exists.mp q1
  obtain ⟨g2, hg2⟩ := Option.isSome_iff_exists.mp q3
  obtain ⟨b2, hb2⟩ := Option.isSome_iff_exists.mp q5
  obtain ⟨R, eR, lR, uR, bR⟩ := blendChannel_nat r1 r2 (hexPair_le _ _ _ hr1)
    (hexPair_le _ _ _ hr2) t ht0 ht1
  obtain ⟨G, eG, lG, uG, bG⟩ := blendChannel_nat g1 g2 (hexPair_le _ _ _ hg1)
    (hexPair_le _ _ _ hg2) t ht0 ht1
  obtain ⟨B, eB, lB, uB, bB⟩ := blendChannel_nat b1 b2 (hexPair_le _ _ _ hb1)
    (hexPair_le _ _ _ hb2) t ht0 ht1
  obtain ⟨k1, k3, k5⟩ := hexPair_rgbString R G B bR bG bB
  refine ⟨rgbString R G B, ?_, isHexColour_rgbString R G B bR bG bB, ?_⟩
  · simp only [blendColors, hr1, hg1, hb1, hr2, hg2, hb2, eR, eG, eB]
  · intro start hs
    simp only [List.mem_cons, List.mem_singleton, List.not_mem_nil, or_false] at hs
    rcases hs with hs | hs | hs <;> subst hs
    · exact ⟨r1, r2, R, hr1, hr2, k1, lR, uR⟩
    · exact ⟨g1, g2, G, hg1, hg2, k3, lG, uG⟩
    · exact ⟨b1, b2, B, hb1, hb2, k5, lB, uB⟩

/-! ## The palette function -/

/-- One round of the loop: it blends the entries at `i mod 30` and `(i + 1) mod 30` at
the ratio `i / count`, and the result is a colour between the two. -/
theorem shade_spec (count i : ℕ) (h : i < count) :
    ∃ c1 c2 col, brightColors.get? (i % 30) = some c1 ∧
      brightColors.get? ((i + 1) % 30) = some c2 ∧
      shade count i = some col ∧
      blendColors c1 c2 (fl ((i : ℚ) / (count : ℚ))) = some col ∧
      IsHexColour col ∧ ChannelsBetween c1 c2 col := by
  have hlen : brightColors.length = 30 := rfl
  have hi1 : i % 30 < brightColors.length := by rw [hlen]; omega
  have hi2 : (i + 1) % 30 < brightColors.length := by rw [hlen]; omega
  have e1 : brightColors.get? (i % 30) = some (brightColors.get ⟨i % 30, hi1⟩) :=
    List.get?_eq_get hi1
  have e2 : brightColors.get? ((i + 1) % 30) = some (brightColors.get ⟨(i + 1) % 30, hi2⟩) :=
    List.get?_eq_get hi2
  obtain ⟨ht0, ht1⟩ := ratio_bounds count i h
  obtain ⟨col, hcol, hhex, hbetween⟩ :=
    blendColors_palette _ _ (List.get_mem brightColors (i % 30) hi1)
      (List.get_mem brightColors ((i + 1) % 30) hi2) _ ht0 ht1
  refine ⟨_, _, col, e1, e2, ?_, hcol, hhex, hbetween⟩
  have hmod : (i % 30 + 1) % 30 = (i + 1) % 30 := by omega
  simp only [shade, hlen, hmod, e1, e2]
  exact hcol

/-- When every round has a result, the loop returns the results in order. -/
theorem allOrNone_map (f : ℕ → Option String) (l : List ℕ)
    (h : ∀ x ∈ l, (f x).isSome = true) :
    allOrNone (l.map f) = some (l.map (fun x => (f x).getD "")) := by
  induction l with
  | nil => rfl
  | cons x xs ih =>
    have hx := h x (List.mem_cons_self x xs)
    obtain ⟨v, hv⟩ := Option.isSome_iff_exists.mp hx
    have ih2 := ih (fun y hy => h y (List.mem_cons_of_mem x hy))
    simp only [List.map_cons, hv, allOrNone, ih2, Option.getD_some]

/-- C29: for every natural number `count`, `getBrightColors(count)` returns a list of
exactly `count` colours; it is the first `count` entries of the palette when
`count <= 30`, and otherwise its entry `i` is the blend of the palette entries at
`i mod 30` and `(i + 1) mod 30` at the ratio `i / count` (rounded as a Number), with
each of its three channels between those of the two entries; every returned colour is
a `#` followed by six hexadecimal digits. -/
theorem C29_getBrightColors (count : ℕ) :
    ∃ colors, getBrightColors count = some colors ∧
      colors.length = count ∧
      (count ≤ 30 → colors = brightColors.take count) ∧
      (30 < count → ∀ i, i < count →
        ∃ c1 c2 col, brightColors.get? (i % 30) = some c1 ∧
          brightColors.get? ((i + 1) % 30) = some c2 ∧
          colors.get? i = some col ∧
          blendColors c1 c2 (fl ((i : ℚ) / (count : ℚ))) = some col ∧
          ChannelsBetween c1 c2 col) ∧
      (∀ c ∈ colors, IsHexColour c) := by
  have hlen : brightColors.length = 30 := rfl
  by_cases hc : count ≤ 30
  · refine ⟨brightColors.take count, ?_, ?_, fun _ => rfl, fun h => absurd hc (by omega), ?_⟩
    · simp only [getBrightColors, hlen, hc, if_true]
    · rw [List.length_take, hlen]
      omega
    · intro c hcm
      exact isHexColour_palette c (List.mem_of_mem_take hcm)
  · have hsome : ∀ x ∈ List.range count, (shade count x).isSome = true := by
      intro x hx
      obtain ⟨_, _, col, _, _, hs, _⟩ := shade_spec count x (List.mem_range.mp hx)
      rw [hs]
      rfl
    refine ⟨(List.range count).map (fun x => (shade count x).getD ""), ?_, ?_,
      fun h => absurd h hc, ?_, ?_⟩
    · simp only [getBrightColors, hlen, hc, if_false]
      exact allOrNone_map (shade count) (List.range count) hsome
    · simp
    · intro _ i hi
      obtain ⟨c1, c2, col, e1, e2, hs, hb, _, hbetween⟩ := shade_spec count i hi
      refine ⟨c1, c2, col, e1, e2, ?_, hb, hbetween⟩
      simp [List.get?_eq_getElem?, List.getElem?_map, List.getElem?_range hi, hs]
    · intro c hcm
      obtain ⟨i, hi, rfl⟩ := List.mem_map.mp hcm
      obtain ⟨_, _, col, _, _, hs, _, hhex, _⟩ := shade_spec count i (List.mem_range.mp hi)
      rw [hs]
      exact hhex

end Dashboard
